import Mathlib

/-!
# Verification of the `fire-peregrine/argument_parser` C library

This file is a shallow embedding of `src/ArgParser.c` (together with the data
declarations of `src/include/ArgParser_local.h`) and proofs about it.

Modelling conventions:
* C strings are Lean `String`s; a `NULL` string argument is represented by `""`
  (the code itself maps `NULL` to `""` in `copyStr`, and `isOptParam` treats
  `NULL` and `""` alike).
* Machine integers are `Nat`/`Int` with explicit `% 2^w` where the code relies
  on truncation.  The platform is assumed LP64: `unsigned long` is 64 bits,
  `int`/`unsigned int`/`int32_t`/`uint32_t` are 32 bits.
* Caller-supplied destinations (`void *dest`) are modelled as a value cell
  stored inside each parameter definition (`PrmDef.dest`), `none` meaning the
  memory was never written by the library.  The `isHelpSpecified` /
  `isVerSpecified` fields of the C struct are exactly the destination cells of
  the two auto-registered parameters, so they are not duplicated here.
* The string arena `buf` is observable only through the returned copies and
  the index `bufIdx`, so the model keeps `bufIdx` and returns the copied
  string directly.
* `exit(0)` on help/version is modelled as a distinguished outcome
  `ParseOutcome.exit0` carrying which banner was printed; printing itself is
  I/O and outside the embedding.
* `strtof`/`strtod` values are modelled as exact rationals read from the
  decimal grammar (sign, digits, optional fraction, optional exponent); IEEE
  rounding and the hex-float/inf/nan forms are outside the embedding.  No
  claim depends on floating-point values; only the accept/reject behaviour of
  the trailing-character check matters, and that is modelled faithfully.
-/

/-- `VarType` of `ArgParser_local.h`. -/
inductive VarType
  | Int
  | UInt
  | String
  | Bool
  | Int32
  | UInt32
  | Float
  | Double
  | True
  deriving DecidableEq, Repr

/-- `ArgType` of `ArgParser_local.h`. -/
inductive ArgType
  | Opt
  | NoOpt
  | Error
  deriving DecidableEq, Repr

/-- The `s` member of the `Val` union (string data plus destination capacity). -/
structure StrVal where
  data : String
  len : Nat
  deriving DecidableEq, Repr

/-- The `Val` union of `ArgParser_local.h`.  A C union is type-punnable; the
model keeps the active member as a tagged value.  All parsers built through
the registration API keep the active member in agreement with the parameter's
`varType`, so the fallback branches of the accessors below are never
exercised. -/
inductive Val
  | i (v : Int)
  | u (v : Nat)
  | s (v : StrVal)
  | b (v : Bool)
  | i32 (v : Int)
  | u32 (v : Nat)
  | f (v : Rat)
  | d (v : Rat)
  deriving DecidableEq, Repr

def Val.asI : Val → Int
  | .i v => v
  | _ => 0

def Val.asU : Val → Nat
  | .u v => v
  | _ => 0

def Val.asStr : Val → StrVal
  | .s v => v
  | _ => ⟨"", 0⟩

def Val.asB : Val → Bool
  | .b v => v
  | _ => false

def Val.asI32 : Val → Int
  | .i32 v => v
  | _ => 0

def Val.asU32 : Val → Nat
  | .u32 v => v
  | _ => 0

def Val.asF : Val → Rat
  | .f v => v
  | _ => 0

def Val.asD : Val → Rat
  | .d v => v
  | _ => 0

/-- Contents of a caller-supplied destination object (the object behind the
`void *dest` pointer, read at the parameter's type). -/
inductive DestVal
  | i (v : Int)
  | u (v : Nat)
  | s (v : String)
  | b (v : Bool)
  | i32 (v : Int)
  | u32 (v : Nat)
  | f (v : Rat)
  | d (v : Rat)
  deriving DecidableEq, Repr

/-- `PrmDef` of `ArgParser_local.h`.  `dest` is the contents of the
destination object (`none` = never written). -/
structure PrmDef where
  sOpt : String
  lOpt : String
  name : String
  desc : String
  varType : VarType
  defVal : Val
  dest : Option DestVal
  deriving DecidableEq, Repr

/-- `struct ArgParser_` of `ArgParser_local.h`.  `numOptPrms`/`numPosPrms` are
the lengths of the two lists; the arena `buf` is represented by `bufIdx`
alone (see the header comment). -/
structure ArgParser where
  progName : String
  progDesc : String
  version : String
  date : String
  author : String
  reqFullPosParams : Bool
  optPrms : List PrmDef
  posPrms : List PrmDef
  hasError : Bool
  errorMsg : String
  bufIdx : Nat
  deriving DecidableEq, Repr

/-- `APARSER_MAX_BUF` -/
def APARSER_MAX_BUF : Nat := 0x1000

/-- `APARSER_MAX_ERROR_MSG` -/
def APARSER_MAX_ERROR_MSG : Nat := 256

/-- `APARSER_MAX_ARG_PRMS` -/
def APARSER_MAX_ARG_PRMS : Nat := 32

/-- Error classification (the spec's error taxonomy, §7); the C code reports
errors only through formatted messages, which the model also reproduces. -/
inductive ErrKind
  | CapacityExceeded
  | DuplicateStorage
  | MalformedToken (tok : String)
  | UnknownOption (tok : String)
  | TooManyPositionals (tok : String) (need : Nat)
  | TooFewPositionals (need got : Nat)
  | MissingOptionValue (tok : String)
  | ConversionFailure (tok name : String)
  deriving DecidableEq, Repr

/-- Result of a registration call (`addParam` returning 0 or 1). -/
inductive RegResult
  | ok
  | err (k : ErrKind)
  deriving DecidableEq, Repr

/-- Which banner was printed before `exit(0)`. -/
inductive Banner
  | Help
  | Version
  deriving DecidableEq, Repr

/-- Result of `ArgParser_parse`: return 0, return 1, or `exit(0)` from inside
the scan loop. -/
inductive ParseOutcome
  | ok
  | err (k : ErrKind)
  | exit0 (b : Banner)
  deriving DecidableEq, Repr

/-- Keep the first `n` characters of a string (the `strncpy`/`vsnprintf`
truncations).  Defined through `List.take` so that it reduces structurally. -/
def strTake (s : String) (n : Nat) : String := String.mk (s.data.take n)

/-- `setErrorMsg` (`vsnprintf` into a 256-byte buffer: at most 255 characters
are kept).  Call sites pass the already-formatted message. -/
def setErrorMsg (obj : ArgParser) (msg : String) : ArgParser :=
  { obj with errorMsg := strTake msg (APARSER_MAX_ERROR_MSG - 1) }

/-- `isspace` of the C locale. -/
def isSpaceC (c : Char) : Bool :=
  c == ' ' || c == '\t' || c == '\n' || c == '\x0b' || c == '\x0c' || c == '\r'

/-- Value of a hexadecimal digit character. -/
def hexVal? (c : Char) : Option Nat :=
  if '0' ≤ c ∧ c ≤ '9' then some (c.toNat - 48)
  else if 'a' ≤ c ∧ c ≤ 'f' then some (c.toNat - 87)
  else if 'A' ≤ c ∧ c ≤ 'F' then some (c.toNat - 55)
  else none

/-- Value of a digit character in the given base (`strtoul` digit test). -/
def digitVal? (base : Nat) (c : Char) : Option Nat :=
  match hexVal? c with
  | some d => if d < base then some d else none
  | none => none

/-- Accumulate the longest run of digits of `base`; returns the accumulated
value, the number of digits consumed and the remaining characters. -/
def grabDigits (base : Nat) : List Char → Nat → Nat → Nat × Nat × List Char
  | [], acc, n => (acc, n, [])
  | c :: cs, acc, n =>
    match digitVal? base c with
    | some d => grabDigits base cs (acc * base + d) (n + 1)
    | none => (acc, n, c :: cs)

/-- Does the list start with a hexadecimal digit? -/
def hexStarts : List Char → Bool
  | c :: _ => (hexVal? c).isSome
  | [] => false

/-- `ULONG_MAX` on LP64. -/
def ULONG_MAX : Nat := 2 ^ 64 - 1

/- `strtoul(nptr, &endptr, 0)`: skip spaces, optional sign, auto base
(`0x` → 16, leading `0` → 8, otherwise 10), longest digit run.  If no digit
was consumed, no conversion is performed and `endptr` is the original
pointer.  On overflow the result is `ULONG_MAX`; otherwise a leading minus
negates the value in `unsigned long` arithmetic: `strtoulCore` below.
First its two front-end steps as named functions. -/
/-- The optional-sign step shared by `strtoul` and `strtof`. -/
def signSplit (cs : List Char) : Bool × List Char :=
  match cs with
  | '-' :: t => (true, t)
  | '+' :: t => (false, t)
  | t => (false, t)

/-- Base detection of `strtoul(.., 0)`: `0x`/`0X` followed by a hex digit
selects 16, a leading `0` selects 8, anything else selects 10. -/
def baseDetect (cs : List Char) : Nat × List Char :=
  match cs with
  | '0' :: c :: t =>
    if (c == 'x' || c == 'X') && hexStarts t then (16, t) else (8, '0' :: c :: t)
  | ['0'] => (8, ['0'])
  | t => (10, t)

def strtoulCore (cs : List Char) : Nat × List Char :=
  let t0 := cs.dropWhile isSpaceC
  let signRes := signSplit t0
  let neg := signRes.1
  let t1 := signRes.2
  let baseRes := baseDetect t1
  let base := baseRes.1
  let t2 := baseRes.2
  let digRes := grabDigits base t2 0 0
  let acc := digRes.1
  let n := digRes.2.1
  let t3 := digRes.2.2
  if n = 0 then (0, cs)
  else if ULONG_MAX < acc then (ULONG_MAX, t3)
  else if neg then ((2 ^ 64 - acc % 2 ^ 64) % 2 ^ 64, t3)
  else (acc, t3)

/-- `strtoul(arg, &errPtr, 0)` on a string; the second component is the
string starting at `errPtr`. -/
def strtoul0 (s : String) : Nat × String :=
  let r := strtoulCore s.data
  (r.1, String.mk r.2)

/-- `strtof`/`strtod` decimal grammar, with the value as an exact rational
(see the header comment on floating point). -/
def strtofCore (cs : List Char) : Rat × List Char :=
  let t0 := cs.dropWhile isSpaceC
  let signRes := signSplit t0
  let neg := signRes.1
  let t1 := signRes.2
  let intRes := grabDigits 10 t1 0 0
  let ip := intRes.1
  let ni := intRes.2.1
  let t2 := intRes.2.2
  let fracRes : Nat × Nat × List Char :=
    match t2 with
    | '.' :: t => grabDigits 10 t 0 0
    | t => (0, 0, t)
  let fp := fracRes.1
  let nf := fracRes.2.1
  let t3 := fracRes.2.2
  if ni + nf = 0 then (0, cs)
  else
    let mant : Rat := (ip : Rat) + (fp : Rat) / ((10 : Rat) ^ nf)
    let expRes : Int × List Char :=
      match t3 with
      | e :: t =>
        if e == 'e' || e == 'E' then
          let esignRes := signSplit t
          let expDig := grabDigits 10 esignRes.2 0 0
          if expDig.2.1 = 0 then ((0 : Int), e :: t)
          else ((if esignRes.1 then -(expDig.1 : Int) else (expDig.1 : Int)), expDig.2.2)
        else ((0 : Int), e :: t)
      | [] => ((0 : Int), [])
    ((if neg then -mant else mant) * (10 : Rat) ^ expRes.1, expRes.2)

/-- `strtof`/`strtod` on a string. -/
def strtof0 (s : String) : Rat × String :=
  let r := strtofCore s.data
  (r.1, String.mk r.2)

/-- Conversion `unsigned long → int32` (two's-complement wrap, the observable
gcc behaviour of the store `*(int *)dest = strtoul(...)`). -/
def toInt32 (v : Nat) : Int :=
  let m : Nat := v % 2 ^ 32
  if m < 2 ^ 31 then (m : Int) else (m : Int) - 2 ^ 32

/-- `determineArgType` of `ArgParser.c`.  `arg[k]` out of range reads the
terminating `'\0'`, which compares unequal to `'-'`; `List.get?` returning
`none` models that faithfully for the comparisons performed here. -/
def determineArgType (arg : String) : ArgType :=
  let cs := arg.data
  if 3 ≤ cs.length ∧ cs.get? 0 = some '-' ∧ cs.get? 1 = some '-' then
    if cs.get? 2 ≠ some '-' then ArgType.Opt
    else ArgType.Error
  else if 2 ≤ cs.length ∧ cs.get? 0 = some '-' then
    if cs.get? 1 ≠ some '-' then ArgType.Opt
    else ArgType.Error
  else
    if cs.get? 0 ≠ some '-' then ArgType.NoOpt
    else ArgType.Error

/-- `isHelpOption` of `ArgParser.c`. -/
def isHelpOption (arg : String) : Bool :=
  arg == "-h" || arg == "--help"

/-- `isVerOption` of `ArgParser.c`. -/
def isVerOption (arg : String) : Bool :=
  arg == "-v" || arg == "--version"

/-- `isOptParam` of `ArgParser.c` (`NULL` represented by `""`). -/
def isOptParam (sOpt lOpt : String) : Bool :=
  sOpt.length != 0 || lOpt.length != 0

/-- `isPosParam` of `ArgParser.c`. -/
def isPosParam (sOpt lOpt : String) : Bool :=
  !isOptParam sOpt lOpt

/-- Scan of `findOptionalParam`, also returning the index of the match. -/
def findOptAux (arg : String) : List PrmDef → Nat → Option (Nat × PrmDef)
  | [], _ => none
  | p :: rest, i =>
    if arg = p.sOpt ∨ arg = p.lOpt then some (i, p)
    else findOptAux arg rest (i + 1)

/-- `findOptionalParam` of `ArgParser.c`: first registered optional parameter
whose short or long option equals the token (index returned as well, standing
for the returned pointer). -/
def findOptionalParam (obj : ArgParser) (arg : String) : Option (Nat × PrmDef) :=
  findOptAux arg obj.optPrms 0

/-- `copyStr` of `ArgParser.c`: the arena is modelled by `bufIdx`; the copy
itself is the returned string.  On failure the error message is set and
`none` returned. -/
def copyStr (obj : ArgParser) (str : String) : ArgParser × Option String :=
  let len := str.length + 1
  if APARSER_MAX_BUF - obj.bufIdx < len then
    (setErrorMsg obj ("Cannot store the string \x27" ++ str ++ "\x27."), none)
  else
    ({ obj with bufIdx := obj.bufIdx + len }, some str)

/-- The value the default pass stores into a destination (`writeDefaultValue`
of `ArgParser.c`).  For strings: `strncpy(p, defVal.s.data, len); p[len-1] = 0`
leaves the first `len - 1` characters of the default. -/
def defaultWrittenVal (p : PrmDef) : DestVal :=
  match p.varType with
  | VarType.Int => DestVal.i p.defVal.asI
  | VarType.UInt => DestVal.u p.defVal.asU
  | VarType.String => DestVal.s (strTake p.defVal.asStr.data (p.defVal.asStr.len - 1))
  | VarType.Bool => DestVal.b p.defVal.asB
  | VarType.Int32 => DestVal.i32 p.defVal.asI32
  | VarType.UInt32 => DestVal.u32 p.defVal.asU32
  | VarType.Float => DestVal.f p.defVal.asF
  | VarType.Double => DestVal.d p.defVal.asD
  | VarType.True => DestVal.b p.defVal.asB

/-- `writeDefaultValue` of `ArgParser.c`.  The C function's only failing
branch is the `default:` label, unreachable for the closed `VarType` enum,
so the model is total. -/
def writeDefaultValue (p : PrmDef) : PrmDef :=
  { p with dest := some (defaultWrittenVal p) }

/-- `writeDefaultParams` of `ArgParser.c`: defaults for all optional
parameters, then all positional parameters, in registration order. -/
def writeDefaultParams (obj : ArgParser) : ArgParser :=
  { obj with
    optPrms := obj.optPrms.map writeDefaultValue
    posPrms := obj.posPrms.map writeDefaultValue }

/-- One conversion step of `writeArg` of `ArgParser.c`: the value stored into
the destination and the success flag.  Mirrors the C control flow: the store
happens first, the trailing-character test (`*errPtr != '\0'`) afterwards, so
the destination is written even when the conversion then fails. -/
def convStep (arg : String) (p : PrmDef) : DestVal × Bool :=
  match p.varType with
  | VarType.Int =>
    let r := strtoul0 arg
    (DestVal.i (toInt32 r.1), r.2 == "")
  | VarType.UInt =>
    let r := strtoul0 arg
    (DestVal.u (r.1 % 2 ^ 32), r.2 == "")
  | VarType.String =>
    (DestVal.s (strTake arg (p.defVal.asStr.len - 1)), true)
  | VarType.Bool =>
    let r := strtoul0 arg
    (DestVal.b (r.1 != 0), r.2 == "")
  | VarType.Int32 =>
    let r := strtoul0 arg
    (DestVal.i32 (toInt32 r.1), r.2 == "")
  | VarType.UInt32 =>
    let r := strtoul0 arg
    (DestVal.u32 (r.1 % 2 ^ 32), r.2 == "")
  | VarType.Float =>
    let r := strtof0 arg
    (DestVal.f r.1, r.2 == "")
  | VarType.Double =>
    let r := strtof0 arg
    (DestVal.d r.1, r.2 == "")
  | VarType.True =>
    let r := strtoul0 arg
    (DestVal.b (r.1 != 0), r.2 == "")

/-- `writeArg` of `ArgParser.c`: stores the (possibly partially) converted
value and reports success.  (The C `default:` branch returns 0 without a
store; it is unreachable for the closed enum.) -/
def writeArg (arg : String) (p : PrmDef) : PrmDef × Bool :=
  let r := convStep arg p
  ({ p with dest := some r.1 }, r.2)

/-- A successful conversion of `arg` at parameter `p`, if any (the value
`writeArg` stores when it returns 0). -/
def conv (arg : String) (p : PrmDef) : Option DestVal :=
  let r := convStep arg p
  if r.2 then some r.1 else none

/-- The member-wise copy of the default value in `addParam`'s `switch`
(string handled separately because it goes through `copyStr`). -/
def storeDefVal (varType : VarType) (defVal : Val) : Val :=
  match varType with
  | VarType.Int => Val.i defVal.asI
  | VarType.UInt => Val.u defVal.asU
  | VarType.String => defVal
  | VarType.Bool => Val.b defVal.asB
  | VarType.Int32 => Val.i32 defVal.asI32
  | VarType.UInt32 => Val.u32 defVal.asU32
  | VarType.Float => Val.f defVal.asF
  | VarType.Double => Val.d defVal.asD
  | VarType.True => Val.b false

/-- The default-value copy of `addParam`'s `switch`: only the string kind
goes through the arena (`copyStr`) and can fail. -/
def defValCopy (obj : ArgParser) (varType : VarType) (defVal : Val) : ArgParser × Option Val :=
  match varType with
  | VarType.String =>
    match copyStr obj defVal.asStr.data with
    | (obj1, none) =>
      (setErrorMsg obj1
        ("Cannot store string-type default value. \x27" ++ defVal.asStr.data ++ "\x27\n"), none)
    | (obj1, some sc) => (obj1, some (Val.s ⟨sc, defVal.asStr.len⟩))
  | vt => (obj, some (storeDefVal vt defVal))

/-- Body of `addParam` after the capacity check: copy the default value and
the four strings into the arena (each copy can fail, rolling `bufIdx` back to
`bufIdx0`), then append the definition to the proper list (the `count++`). -/
def addParamCont (obj : ArgParser) (bufIdx0 : Nat) (varType : VarType) (defVal : Val)
    (sOpt lOpt name desc : String) : ArgParser × RegResult :=
  match defValCopy obj varType defVal with
  | (obj1, none) => ({ obj1 with bufIdx := bufIdx0 }, RegResult.err ErrKind.DuplicateStorage)
  | (obj1, some dv) =>
    match copyStr obj1 sOpt with
    | (obj2, none) =>
      ({ setErrorMsg obj2 ("Cannot store short option. \x27" ++ sOpt ++ "\x27\n") with
          bufIdx := bufIdx0 }, RegResult.err ErrKind.DuplicateStorage)
    | (obj2, some sOptC) =>
      match copyStr obj2 lOpt with
      | (obj3, none) => ({ obj3 with bufIdx := bufIdx0 }, RegResult.err ErrKind.DuplicateStorage)
      | (obj3, some lOptC) =>
        match copyStr obj3 name with
        | (obj4, none) => ({ obj4 with bufIdx := bufIdx0 }, RegResult.err ErrKind.DuplicateStorage)
        | (obj4, some nameC) =>
          match copyStr obj4 desc with
          | (obj5, none) => ({ obj5 with bufIdx := bufIdx0 }, RegResult.err ErrKind.DuplicateStorage)
          | (obj5, some descC) =>
            let pdef : PrmDef :=
              { sOpt := sOptC, lOpt := lOptC, name := nameC, desc := descC,
                varType := varType, defVal := dv, dest := none }
            if isOptParam sOpt lOpt then
              ({ obj5 with optPrms := obj5.optPrms ++ [pdef] }, RegResult.ok)
            else
              ({ obj5 with posPrms := obj5.posPrms ++ [pdef] }, RegResult.ok)

/-- `addParam` of `ArgParser.c`. -/
def addParam (obj : ArgParser) (varType : VarType) (defVal : Val)
    (sOpt lOpt name desc : String) : ArgParser × RegResult :=
  let bufIdx0 := obj.bufIdx
  if isOptParam sOpt lOpt then
    if APARSER_MAX_ARG_PRMS ≤ obj.optPrms.length then
      ({ setErrorMsg obj "Maximum number of optional parameters reached.\n" with
          bufIdx := bufIdx0 }, RegResult.err ErrKind.CapacityExceeded)
    else addParamCont obj bufIdx0 varType defVal sOpt lOpt name desc
  else
    if APARSER_MAX_ARG_PRMS ≤ obj.posPrms.length then
      ({ setErrorMsg obj "Maximum number of positional parameters reached.\n" with
          bufIdx := bufIdx0 }, RegResult.err ErrKind.CapacityExceeded)
    else addParamCont obj bufIdx0 varType defVal sOpt lOpt name desc

/-- `ArgParser_addInt` -/
def ArgParser_addInt (obj : ArgParser) (defVal : Int) (sOpt lOpt name desc : String) :
    ArgParser × RegResult :=
  addParam obj VarType.Int (Val.i defVal) sOpt lOpt name desc

/-- `ArgParser_addUInt` -/
def ArgParser_addUInt (obj : ArgParser) (defVal : Nat) (sOpt lOpt name desc : String) :
    ArgParser × RegResult :=
  addParam obj VarType.UInt (Val.u defVal) sOpt lOpt name desc

/-- `ArgParser_addString` -/
def ArgParser_addString (obj : ArgParser) (defVal : String) (maxLen : Nat)
    (sOpt lOpt name desc : String) : ArgParser × RegResult :=
  addParam obj VarType.String (Val.s ⟨defVal, maxLen⟩) sOpt lOpt name desc

/-- `ArgParser_addBool` -/
def ArgParser_addBool (obj : ArgParser) (defVal : Bool) (sOpt lOpt name desc : String) :
    ArgParser × RegResult :=
  addParam obj VarType.Bool (Val.b defVal) sOpt lOpt name desc

/-- `ArgParser_addInt32` -/
def ArgParser_addInt32 (obj : ArgParser) (defVal : Int) (sOpt lOpt name desc : String) :
    ArgParser × RegResult :=
  addParam obj VarType.Int32 (Val.i32 defVal) sOpt lOpt name desc

/-- `ArgParser_addUInt32` -/
def ArgParser_addUInt32 (obj : ArgParser) (defVal : Nat) (sOpt lOpt name desc : String) :
    ArgParser × RegResult :=
  addParam obj VarType.UInt32 (Val.u32 defVal) sOpt lOpt name desc

/-- `ArgParser_addFloat` -/
def ArgParser_addFloat (obj : ArgParser) (defVal : Rat) (sOpt lOpt name desc : String) :
    ArgParser × RegResult :=
  addParam obj VarType.Float (Val.f defVal) sOpt lOpt name desc

/-- `ArgParser_addDouble` -/
def ArgParser_addDouble (obj : ArgParser) (defVal : Rat) (sOpt lOpt name desc : String) :
    ArgParser × RegResult :=
  addParam obj VarType.Double (Val.d defVal) sOpt lOpt name desc

/-- `ArgParser_addTrue` (no default argument in the C API; `v.b = false`). -/
def ArgParser_addTrue (obj : ArgParser) (sOpt lOpt name desc : String) :
    ArgParser × RegResult :=
  addParam obj VarType.True (Val.b false) sOpt lOpt name desc

/-- The freshly `memset`/initialized object of `ArgParser_new` before any
copies. -/
def initParserObj : ArgParser :=
  { progName := "", progDesc := "", version := "", date := "", author := "",
    reqFullPosParams := false, optPrms := [], posPrms := [],
    hasError := false, errorMsg := "OK.", bufIdx := 0 }

/-- `ArgParser_new` of `ArgParser.c`: copy program name/description, empty
version/date/author, then auto-register `-h` `--help` and `-v` `--version`.
Any failure frees the object and returns `NULL` (`none`). -/
def ArgParser_new (progName progDesc : String) : Option ArgParser :=
  match copyStr initParserObj progName with
  | (_, none) => none
  | (o1, some pn) =>
    match copyStr { o1 with progName := pn } progDesc with
    | (_, none) => none
    | (o2, some pd) =>
      match copyStr { o2 with progDesc := pd } "" with
      | (_, none) => none
      | (o3, some ver) =>
        match copyStr { o3 with version := ver } "" with
        | (_, none) => none
        | (o4, some dt) =>
          match copyStr { o4 with date := dt } "" with
          | (_, none) => none
          | (o5, some au) =>
            match addParam { o5 with author := au } VarType.True (Val.b false)
                "-h" "--help" "help" "Show help message." with
            | (_, RegResult.err _) => none
            | (o6, RegResult.ok) =>
              match addParam o6 VarType.True (Val.b false)
                  "-v" "--version" "version" "Show version string." with
              | (_, RegResult.err _) => none
              | (o7, RegResult.ok) => some o7

/-- `ArgParser_requireFullPosParams` -/
def ArgParser_requireFullPosParams (obj : ArgParser) : ArgParser :=
  { obj with reqFullPosParams := true }

/-- The `while (i < argc)` loop of `ArgParser_parse`, over the remaining
tokens, carrying `posIdx`.  Returns the final state, the final `posIdx` and
the loop's outcome (`ok` = fell out of the loop normally).

The C code guards positional overflow with `posIdx == numPosPrms`; starting
from `posIdx = 0` the counter never exceeds the count, so the guard is
equivalent to the `List.get?` lookup failing. -/
def parseLoop (obj : ArgParser) (toks : List String) (posIdx : Nat) :
    ArgParser × Nat × ParseOutcome :=
  match toks with
  | [] => (obj, posIdx, ParseOutcome.ok)
  | a :: rest =>
    match determineArgType a with
    | ArgType.Error =>
      (setErrorMsg obj ("Irregal argument type: Near the arg \x27" ++ a ++ "\x27."),
        posIdx, ParseOutcome.err (ErrKind.MalformedToken a))
    | ArgType.NoOpt =>
      match obj.posPrms[posIdx]? with
      | none =>
        (setErrorMsg obj ("Too many positonal arguments: Near the arg \x27" ++ a ++
            "\x27. Needs " ++ toString obj.posPrms.length ++
            " positional args. But has more args."),
          posIdx, ParseOutcome.err (ErrKind.TooManyPositionals a obj.posPrms.length))
      | some pdef =>
        match writeArg a pdef with
        | (pdef', false) =>
          (setErrorMsg { obj with posPrms := obj.posPrms.set posIdx pdef' }
              ("Invalid value: arg " ++ a ++ ", " ++ pdef.name),
            posIdx, ParseOutcome.err (ErrKind.ConversionFailure a pdef.name))
        | (pdef', true) =>
          parseLoop { obj with posPrms := obj.posPrms.set posIdx pdef' } rest (posIdx + 1)
    | ArgType.Opt =>
      match findOptionalParam obj a with
      | none =>
        (setErrorMsg obj ("Unknown option: Near the arg. " ++ a),
          posIdx, ParseOutcome.err (ErrKind.UnknownOption a))
      | some (j, pdef) =>
        if isHelpOption a then (obj, posIdx, ParseOutcome.exit0 Banner.Help)
        else if isVerOption a then (obj, posIdx, ParseOutcome.exit0 Banner.Version)
        else if pdef.varType = VarType.True then
          match writeArg "1" pdef with
          | (pdef', false) =>
            (setErrorMsg { obj with optPrms := obj.optPrms.set j pdef' }
                ("Invalid value: arg " ++ a ++ ", " ++ pdef.name),
              posIdx, ParseOutcome.err (ErrKind.ConversionFailure a pdef.name))
          | (pdef', true) =>
            parseLoop { obj with optPrms := obj.optPrms.set j pdef' } rest posIdx
        else
          match rest with
          | [] =>
            (setErrorMsg obj ("Lack of the last argument: Near the arg " ++ a ++ "."),
              posIdx, ParseOutcome.err (ErrKind.MissingOptionValue a))
          | v :: rest2 =>
            match writeArg v pdef with
            | (pdef', false) =>
              (setErrorMsg { obj with optPrms := obj.optPrms.set j pdef' }
                  ("Invalid value: arg " ++ v ++ ", " ++ pdef.name),
                posIdx, ParseOutcome.err (ErrKind.ConversionFailure v pdef.name))
            | (pdef', true) =>
              parseLoop { obj with optPrms := obj.optPrms.set j pdef' } rest2 posIdx

/-- `ArgParser_parse` of `ArgParser.c`: default pass (total, see
`writeDefaultValue`), scan loop from token 1, then the strict-positional
arity check. -/
def ArgParser_parse (obj : ArgParser) (argv : List String) : ArgParser × ParseOutcome :=
  let obj1 := writeDefaultParams obj
  match parseLoop obj1 (argv.drop 1) 0 with
  | (obj2, posIdx, ParseOutcome.ok) =>
    if posIdx < obj2.posPrms.length ∧ obj2.reqFullPosParams = true then
      (setErrorMsg obj2 ("Too few positonal arguments: Needs " ++
          toString obj2.posPrms.length ++ " args. But has only " ++
          toString posIdx ++ " args."),
        ParseOutcome.err (ErrKind.TooFewPositionals obj2.posPrms.length posIdx))
    else (obj2, ParseOutcome.ok)
  | (obj2, _, r) => (obj2, r)

/-- Modelled from the spec: the TokenClassifier contract of §4.1, its five
rules applied in order.  Used only to compare against `determineArgType`
(claim C2); every other definition in this file is translated from the C
source. -/
def classifySpec (t : String) : ArgType :=
  let cs := t.data
  if 3 ≤ cs.length ∧ cs.get? 0 = some '-' ∧ cs.get? 1 = some '-' ∧ cs.get? 2 ≠ some '-' then
    ArgType.Opt
  else if cs.take 3 = ['-', '-', '-'] then
    ArgType.Error
  else if 2 ≤ cs.length ∧ cs.get? 0 = some '-' ∧ cs.get? 1 ≠ some '-' then
    ArgType.Opt
  else if t = "-" ∨ t = "--" then
    ArgType.Error
  else if cs.get? 0 ≠ some '-' then
    ArgType.NoOpt
  else
    ArgType.Error

/-! ## Helper lemmas about the engine -/

/-- Everything of a parameter definition except the destination cell: the
scan loop rewrites destinations but never the definitions themselves. -/
def prmSig (p : PrmDef) : String × String × String × String × VarType × Val :=
  (p.sOpt, p.lOpt, p.name, p.desc, p.varType, p.defVal)

theorem convStep_dest_irrel (t : String) (p : PrmDef) (v : Option DestVal) :
    convStep t { p with dest := v } = convStep t p := rfl

theorem writeArg_eq (a : String) (p : PrmDef) :
    writeArg a p = ({ p with dest := some (convStep a p).1 }, (convStep a p).2) := rfl

theorem prmSig_writeArg {a : String} {p p' : PrmDef} {ok : Bool}
    (h : writeArg a p = (p', ok)) : prmSig p' = prmSig p := by
  rw [writeArg_eq] at h
  cases h
  rfl


theorem set_getElem?_self {α : Type _} :
    ∀ (l : List α) (i : Nat) (a : α), l[i]? = some a → l.set i a = l := by
  intro l
  induction l with
  | nil => intro i a h; simp at h
  | cons x xs ih =>
    intro i a h
    cases i with
    | zero => simp_all
    | succ n =>
      simp only [List.getElem?_cons_succ] at h
      simp only [List.set]
      rw [ih n a h]

theorem map_prmSig_set {l : List PrmDef} {i : Nat} {p q : PrmDef}
    (hp : l[i]? = some p) (hq : prmSig q = prmSig p) :
    (l.set i q).map prmSig = l.map prmSig := by
  rw [List.map_set]
  apply set_getElem?_self
  simp [List.getElem?_map, hp, hq]

theorem findOptAux_getElem? (a : String) :
    ∀ (l : List PrmDef) (i j : Nat) (q : PrmDef),
      findOptAux a l i = some (j, q) → i ≤ j ∧ l[j - i]? = some q := by
  intro l
  induction l with
  | nil => intro i j q hq; simp [findOptAux] at hq
  | cons x xs ih =>
    intro i j q hq
    simp only [findOptAux] at hq
    split at hq
    · cases hq
      simp
    · obtain ⟨hij, hget⟩ := ih (i + 1) j q hq
      refine ⟨by omega, ?_⟩
      have hsub : j - i = (j - (i + 1)) + 1 := by omega
      rw [hsub]
      simpa using hget

theorem findOptionalParam_getElem? {obj : ArgParser} {a : String} {j : Nat} {q : PrmDef}
    (h : findOptionalParam obj a = some (j, q)) : obj.optPrms[j]? = some q := by
  have := (findOptAux_getElem? a obj.optPrms 0 j q h).2
  simpa using this

/-- The scan loop never changes the parser's metadata, the registered
definitions (up to destination cells), or the arena index; the positional
counter never decreases; and when the loop falls out normally, positional
slots at or beyond the final counter were never rewritten. -/
theorem parseLoop_state (obj : ArgParser) (toks : List String) (posIdx : Nat) :
    (parseLoop obj toks posIdx).1.progName = obj.progName ∧
    (parseLoop obj toks posIdx).1.progDesc = obj.progDesc ∧
    (parseLoop obj toks posIdx).1.version = obj.version ∧
    (parseLoop obj toks posIdx).1.date = obj.date ∧
    (parseLoop obj toks posIdx).1.author = obj.author ∧
    (parseLoop obj toks posIdx).1.reqFullPosParams = obj.reqFullPosParams ∧
    (parseLoop obj toks posIdx).1.hasError = obj.hasError ∧
    (parseLoop obj toks posIdx).1.bufIdx = obj.bufIdx ∧
    (parseLoop obj toks posIdx).1.optPrms.map prmSig = obj.optPrms.map prmSig ∧
    (parseLoop obj toks posIdx).1.posPrms.map prmSig = obj.posPrms.map prmSig ∧
    posIdx ≤ (parseLoop obj toks posIdx).2.1 ∧
    ((parseLoop obj toks posIdx).2.2 = ParseOutcome.ok →
      ∀ j, (parseLoop obj toks posIdx).2.1 ≤ j →
        (parseLoop obj toks posIdx).1.posPrms[j]? = obj.posPrms[j]?) := by
  induction obj, toks, posIdx using parseLoop.induct with
  | case1 obj posIdx =>
    simp [parseLoop]
  | case2 obj posIdx a rest h =>
    simp [parseLoop, h, setErrorMsg]
  | case3 obj posIdx a rest h hget =>
    simp [parseLoop, h, hget, setErrorMsg]
  | case4 obj posIdx a rest h pdef hget pdef' hw =>
    have hsig := prmSig_writeArg hw
    simp [parseLoop, h, hget, hw, setErrorMsg, map_prmSig_set hget hsig]
  | case5 obj posIdx a rest h pdef hget pdef' hw ih =>
    have hsig := prmSig_writeArg hw
    have hstep : parseLoop obj (a :: rest) posIdx
        = parseLoop { obj with posPrms := obj.posPrms.set posIdx pdef' } rest (posIdx + 1) := by
      simp only [parseLoop, h, hget, hw]
    rw [hstep]
    obtain ⟨h1, h2, h3, h4, h5, h6, h7, h8, h9, h10, h11, h12⟩ := ih
    refine ⟨h1, h2, h3, h4, h5, h6, h7, h8, h9, h10.trans (map_prmSig_set hget hsig),
      by omega, ?_⟩
    intro hok j hj
    rw [h12 hok j hj]
    apply List.getElem?_set_ne
    omega
  | case6 obj posIdx a rest h hfind =>
    simp [parseLoop, h, hfind, setErrorMsg]
  | case7 obj posIdx a rest h j pdef hfind hh =>
    simp [parseLoop, h, hfind, hh]
  | case8 obj posIdx a rest h j pdef hfind hh hv =>
    simp [parseLoop, h, hfind, hh, hv]
  | case9 obj posIdx a rest h j pdef hfind hh hv ht pdef' hw =>
    have hsig := prmSig_writeArg hw
    have hget := findOptionalParam_getElem? hfind
    simp [parseLoop, h, hfind, hh, hv, ht, hw, setErrorMsg, map_prmSig_set hget hsig]
  | case10 obj posIdx a rest h j pdef hfind hh hv ht pdef' hw ih =>
    have hsig := prmSig_writeArg hw
    have hget := findOptionalParam_getElem? hfind
    have hstep : parseLoop obj (a :: rest) posIdx
        = parseLoop { obj with optPrms := obj.optPrms.set j pdef' } rest posIdx := by
      simp only [parseLoop, h, hfind, hh, hv, ht, hw]
      simp [hh, hv]
    rw [hstep]
    obtain ⟨h1, h2, h3, h4, h5, h6, h7, h8, h9, h10, h11, h12⟩ := ih
    exact ⟨h1, h2, h3, h4, h5, h6, h7, h8, h9.trans (map_prmSig_set hget hsig), h10, h11, h12⟩
  | case11 obj posIdx a h j pdef hfind hh hv ht =>
    simp [parseLoop, h, hfind, hh, hv, ht, setErrorMsg]
  | case12 obj posIdx a h j pdef hfind hh hv ht v rest2 pdef' hw =>
    have hsig := prmSig_writeArg hw
    have hget := findOptionalParam_getElem? hfind
    simp [parseLoop, h, hfind, hh, hv, ht, hw, setErrorMsg, map_prmSig_set hget hsig]
  | case13 obj posIdx a h j pdef hfind hh hv ht v rest2 pdef' hw ih =>
    have hsig := prmSig_writeArg hw
    have hget := findOptionalParam_getElem? hfind
    have hstep : parseLoop obj (a :: v :: rest2) posIdx
        = parseLoop { obj with optPrms := obj.optPrms.set j pdef' } rest2 posIdx := by
      simp only [parseLoop, h, hfind, hh, hv, ht, hw]
      simp [hh, hv]
    rw [hstep]
    obtain ⟨h1, h2, h3, h4, h5, h6, h7, h8, h9, h10, h11, h12⟩ := ih
    exact ⟨h1, h2, h3, h4, h5, h6, h7, h8, h9.trans (map_prmSig_set hget hsig), h10, h11, h12⟩

/-- A `exit(0)` outcome of the scan loop can only come from a token that is
the help option or the version option. -/
theorem parseLoop_exit_src (obj : ArgParser) (toks : List String) (posIdx : Nat) :
    ∀ b, (parseLoop obj toks posIdx).2.2 = ParseOutcome.exit0 b →
      ∃ t, t ∈ toks ∧ ((b = Banner.Help ∧ isHelpOption t = true) ∨
        (b = Banner.Version ∧ isVerOption t = true)) := by
  induction obj, toks, posIdx using parseLoop.induct with
  | case1 obj posIdx =>
    intro b hb; simp [parseLoop] at hb
  | case2 obj posIdx a rest h =>
    intro b hb; simp [parseLoop, h, setErrorMsg] at hb
  | case3 obj posIdx a rest h hget =>
    intro b hb; simp [parseLoop, h, hget, setErrorMsg] at hb
  | case4 obj posIdx a rest h pdef hget pdef' hw =>
    intro b hb; simp [parseLoop, h, hget, hw, setErrorMsg] at hb
  | case5 obj posIdx a rest h pdef hget pdef' hw ih =>
    intro b hb
    have hstep : parseLoop obj (a :: rest) posIdx
        = parseLoop { obj with posPrms := obj.posPrms.set posIdx pdef' } rest (posIdx + 1) := by
      simp only [parseLoop, h, hget, hw]
    rw [hstep] at hb
    obtain ⟨t, ht, hc⟩ := ih b hb
    exact ⟨t, List.mem_cons_of_mem a ht, hc⟩
  | case6 obj posIdx a rest h hfind =>
    intro b hb; simp [parseLoop, h, hfind, setErrorMsg] at hb
  | case7 obj posIdx a rest h j pdef hfind hh =>
    intro b hb
    simp [parseLoop, h, hfind, hh] at hb
    exact ⟨a, List.mem_cons_self a rest, Or.inl ⟨hb.symm, hh⟩⟩
  | case8 obj posIdx a rest h j pdef hfind hh hv =>
    intro b hb
    simp [parseLoop, h, hfind, hh, hv] at hb
    exact ⟨a, List.mem_cons_self a rest, Or.inr ⟨hb.symm, hv⟩⟩
  | case9 obj posIdx a rest h j pdef hfind hh hv ht pdef' hw =>
    intro b hb; simp [parseLoop, h, hfind, hh, hv, ht, hw, setErrorMsg] at hb
  | case10 obj posIdx a rest h j pdef hfind hh hv ht pdef' hw ih =>
    intro b hb
    have hstep : parseLoop obj (a :: rest) posIdx
        = parseLoop { obj with optPrms := obj.optPrms.set j pdef' } rest posIdx := by
      simp only [parseLoop, h, hfind, hh, hv, ht, hw]
      simp [hh, hv]
    rw [hstep] at hb
    obtain ⟨t, htm, hc⟩ := ih b hb
    exact ⟨t, List.mem_cons_of_mem a htm, hc⟩
  | case11 obj posIdx a h j pdef hfind hh hv ht =>
    intro b hb; simp [parseLoop, h, hfind, hh, hv, ht, setErrorMsg] at hb
  | case12 obj posIdx a h j pdef hfind hh hv ht v rest2 pdef' hw =>
    intro b hb; simp [parseLoop, h, hfind, hh, hv, ht, hw, setErrorMsg] at hb
  | case13 obj posIdx a h j pdef hfind hh hv ht v rest2 pdef' hw ih =>
    intro b hb
    have hstep : parseLoop obj (a :: v :: rest2) posIdx
        = parseLoop { obj with optPrms := obj.optPrms.set j pdef' } rest2 posIdx := by
      simp only [parseLoop, h, hfind, hh, hv, ht, hw]
      simp [hh, hv]
    rw [hstep] at hb
    obtain ⟨t, htm, hc⟩ := ih b hb
    exact ⟨t, List.mem_cons_of_mem a (List.mem_cons_of_mem v htm), hc⟩

/-- The index returned by the option lookup depends only on the registered
option strings, not on the destination cells. -/
theorem findOptAux_fst_sig (a : String) :
    ∀ (l l' : List PrmDef) (i : Nat), l.map prmSig = l'.map prmSig →
      (findOptAux a l i).map Prod.fst = (findOptAux a l' i).map Prod.fst := by
  intro l
  induction l with
  | nil =>
    intro l' i hm
    cases l' with
    | nil => rfl
    | cons q qs => simp at hm
  | cons p ps ih =>
    intro l' i hm
    cases l' with
    | nil => simp at hm
    | cons q qs =>
      simp only [List.map_cons, List.cons.injEq] at hm
      obtain ⟨hpq, hqs⟩ := hm
      have hsOpt : p.sOpt = q.sOpt := congrArg (fun x => x.1) hpq
      have hlOpt : p.lOpt = q.lOpt := congrArg (fun x => x.2.1) hpq
      simp only [findOptAux, hsOpt, hlOpt]
      by_cases hc : a = q.sOpt ∨ a = q.lOpt
      · simp [hc]
      · simp only [hc, if_false]
        exact ih qs (i + 1) hqs

/-- An optional parameter to which no token of the stream resolves is never
rewritten by the scan loop. -/
theorem parseLoop_opt_untouched (obj : ArgParser) (toks : List String) (posIdx : Nat) :
    ∀ j0, (∀ t ∈ toks, (findOptionalParam obj t).map Prod.fst ≠ some j0) →
      (parseLoop obj toks posIdx).1.optPrms[j0]? = obj.optPrms[j0]? := by
  induction obj, toks, posIdx using parseLoop.induct with
  | case1 obj posIdx =>
    intro j0 _; simp [parseLoop]
  | case2 obj posIdx a rest h =>
    intro j0 _; simp [parseLoop, h, setErrorMsg]
  | case3 obj posIdx a rest h hget =>
    intro j0 _; simp [parseLoop, h, hget, setErrorMsg]
  | case4 obj posIdx a rest h pdef hget pdef' hw =>
    intro j0 _; simp [parseLoop, h, hget, hw, setErrorMsg]
  | case5 obj posIdx a rest h pdef hget pdef' hw ih =>
    intro j0 hno
    have hstep : parseLoop obj (a :: rest) posIdx
        = parseLoop { obj with posPrms := obj.posPrms.set posIdx pdef' } rest (posIdx + 1) := by
      simp only [parseLoop, h, hget, hw]
    rw [hstep]
    exact ih j0 (fun t htm => hno t (List.mem_cons_of_mem a htm))
  | case6 obj posIdx a rest h hfind =>
    intro j0 _; simp [parseLoop, h, hfind, setErrorMsg]
  | case7 obj posIdx a rest h j pdef hfind hh =>
    intro j0 _; simp [parseLoop, h, hfind, hh]
  | case8 obj posIdx a rest h j pdef hfind hh hv =>
    intro j0 _; simp [parseLoop, h, hfind, hh, hv]
  | case9 obj posIdx a rest h j pdef hfind hh hv ht pdef' hw =>
    intro j0 hno
    have hj : j ≠ j0 := by
      intro he
      exact hno a (List.mem_cons_self a rest) (by simp [hfind, he])
    simp [parseLoop, h, hfind, hh, hv, ht, hw, setErrorMsg, List.getElem?_set_ne hj]
  | case10 obj posIdx a rest h j pdef hfind hh hv ht pdef' hw ih =>
    intro j0 hno
    have hj : j ≠ j0 := by
      intro he
      exact hno a (List.mem_cons_self a rest) (by simp [hfind, he])
    have hsig := prmSig_writeArg hw
    have hget := findOptionalParam_getElem? hfind
    have hstep : parseLoop obj (a :: rest) posIdx
        = parseLoop { obj with optPrms := obj.optPrms.set j pdef' } rest posIdx := by
      simp only [parseLoop, h, hfind, hh, hv, ht, hw]
      simp [hh, hv]
    rw [hstep]
    have hm : (obj.optPrms.set j pdef').map prmSig = obj.optPrms.map prmSig :=
      map_prmSig_set hget hsig
    have htrans := ih j0 (fun t htm hfe => by
      have := findOptAux_fst_sig t (obj.optPrms.set j pdef') obj.optPrms 0 hm
      exact hno t (List.mem_cons_of_mem a htm)
        (by rw [findOptionalParam] at hfe ⊢; rw [← this]; exact hfe))
    rw [htrans]
    exact List.getElem?_set_ne hj
  | case11 obj posIdx a h j pdef hfind hh hv ht =>
    intro j0 _; simp [parseLoop, h, hfind, hh, hv, ht, setErrorMsg]
  | case12 obj posIdx a h j pdef hfind hh hv ht v rest2 pdef' hw =>
    intro j0 hno
    have hj : j ≠ j0 := by
      intro he
      exact hno a (List.mem_cons_self a (v :: rest2)) (by simp [hfind, he])
    simp [parseLoop, h, hfind, hh, hv, ht, hw, setErrorMsg, List.getElem?_set_ne hj]
  | case13 obj posIdx a h j pdef hfind hh hv ht v rest2 pdef' hw ih =>
    intro j0 hno
    have hj : j ≠ j0 := by
      intro he
      exact hno a (List.mem_cons_self a (v :: rest2)) (by simp [hfind, he])
    have hsig := prmSig_writeArg hw
    have hget := findOptionalParam_getElem? hfind
    have hstep : parseLoop obj (a :: v :: rest2) posIdx
        = parseLoop { obj with optPrms := obj.optPrms.set j pdef' } rest2 posIdx := by
      simp only [parseLoop, h, hfind, hh, hv, ht, hw]
      simp [hh, hv]
    rw [hstep]
    have hm : (obj.optPrms.set j pdef').map prmSig = obj.optPrms.map prmSig :=
      map_prmSig_set hget hsig
    have htrans := ih j0 (fun t htm hfe => by
      have := findOptAux_fst_sig t (obj.optPrms.set j pdef') obj.optPrms 0 hm
      exact hno t (List.mem_cons_of_mem a (List.mem_cons_of_mem v htm))
        (by rw [findOptionalParam] at hfe ⊢; rw [← this]; exact hfe))
    rw [htrans]
    exact List.getElem?_set_ne hj

/-- Between two parameter lists: every slot is unchanged, or rewritten with
exactly the value `writeArg` stores at that definition for some token drawn
from `src`. -/
def slotEvol (src : List String) (l l' : List PrmDef) : Prop :=
  ∀ (i : Nat), l'[i]? = l[i]? ∨
    ∃ (t : String) (q : PrmDef), t ∈ src ∧ l[i]? = some q ∧
      l'[i]? = some { q with dest := some (convStep t q).1 }

theorem slotEvol_refl (src : List String) (l : List PrmDef) : slotEvol src l l :=
  fun _ => Or.inl rfl

theorem slotEvol_mono {src src' : List String} {l l' : List PrmDef}
    (hsub : ∀ t ∈ src, t ∈ src') (h : slotEvol src l l') : slotEvol src' l l' := by
  intro i
  rcases h i with hl | ⟨t, q, htm, hq, hq'⟩
  · exact Or.inl hl
  · exact Or.inr ⟨t, q, hsub t htm, hq, hq'⟩

theorem slotEvol_set {src : List String} {l : List PrmDef} {j : Nat} {pdef pdef' : PrmDef}
    {t : String} (hget : l[j]? = some pdef)
    (hpd : pdef' = { pdef with dest := some (convStep t pdef).1 }) (htm : t ∈ src) :
    slotEvol src l (l.set j pdef') := by
  intro i
  by_cases hij : j = i
  · subst hij
    have hlt : j < l.length := by
      by_contra hge
      rw [List.getElem?_eq_none (by omega)] at hget
      exact Option.noConfusion hget
    right
    exact ⟨t, pdef, htm, hget, by rw [List.getElem?_set_self hlt, hpd]⟩
  · exact Or.inl (List.getElem?_set_ne hij)

theorem slotEvol_trans {src : List String} {l1 l2 l3 : List PrmDef}
    (h12 : slotEvol src l1 l2) (h23 : slotEvol src l2 l3) : slotEvol src l1 l3 := by
  intro i
  rcases h23 i with h3 | ⟨t2, q2, htm2, hq2, hq3⟩
  · rcases h12 i with h2 | ⟨t1, q1, htm1, hq1, hq2⟩
    · exact Or.inl (h3.trans h2)
    · exact Or.inr ⟨t1, q1, htm1, hq1, h3.trans hq2⟩
  · rcases h12 i with h2 | ⟨t1, q1, htm1, hq1, hq2'⟩
    · right
      exact ⟨t2, q2, htm2, h2 ▸ hq2, hq3⟩
    · right
      rw [hq2'] at hq2
      cases hq2
      refine ⟨t2, q1, htm2, hq1, ?_⟩
      rw [hq3]
      rfl

/-! Step equations of the scan loop, one per control path. -/

theorem parseLoop_nil (obj : ArgParser) (posIdx : Nat) :
    parseLoop obj [] posIdx = (obj, posIdx, ParseOutcome.ok) := rfl

theorem parseLoop_cons_error {a : String} (obj : ArgParser) (posIdx : Nat) (rest : List String)
    (h : determineArgType a = ArgType.Error) :
    parseLoop obj (a :: rest) posIdx
      = (setErrorMsg obj ("Irregal argument type: Near the arg \x27" ++ a ++ "\x27."),
          posIdx, ParseOutcome.err (ErrKind.MalformedToken a)) := by
  simp only [parseLoop, h]

theorem parseLoop_cons_toomany {a : String} (obj : ArgParser) (posIdx : Nat) (rest : List String)
    (h : determineArgType a = ArgType.NoOpt) (hget : obj.posPrms[posIdx]? = none) :
    parseLoop obj (a :: rest) posIdx
      = (setErrorMsg obj ("Too many positonal arguments: Near the arg \x27" ++ a ++
            "\x27. Needs " ++ toString obj.posPrms.length ++
            " positional args. But has more args."),
          posIdx, ParseOutcome.err (ErrKind.TooManyPositionals a obj.posPrms.length)) := by
  simp only [parseLoop, h, hget]

theorem parseLoop_cons_posfail {a : String} (obj : ArgParser) (posIdx : Nat) (rest : List String)
    {pdef pdef' : PrmDef} (h : determineArgType a = ArgType.NoOpt)
    (hget : obj.posPrms[posIdx]? = some pdef) (hw : writeArg a pdef = (pdef', false)) :
    parseLoop obj (a :: rest) posIdx
      = (setErrorMsg { obj with posPrms := obj.posPrms.set posIdx pdef' }
            ("Invalid value: arg " ++ a ++ ", " ++ pdef.name),
          posIdx, ParseOutcome.err (ErrKind.ConversionFailure a pdef.name)) := by
  simp only [parseLoop, h, hget, hw]

theorem parseLoop_cons_posok {a : String} (obj : ArgParser) (posIdx : Nat) (rest : List String)
    {pdef pdef' : PrmDef} (h : determineArgType a = ArgType.NoOpt)
    (hget : obj.posPrms[posIdx]? = some pdef) (hw : writeArg a pdef = (pdef', true)) :
    parseLoop obj (a :: rest) posIdx
      = parseLoop { obj with posPrms := obj.posPrms.set posIdx pdef' } rest (posIdx + 1) := by
  simp only [parseLoop, h, hget, hw]

theorem parseLoop_cons_unknown {a : String} (obj : ArgParser) (posIdx : Nat) (rest : List String)
    (h : determineArgType a = ArgType.Opt) (hfind : findOptionalParam obj a = none) :
    parseLoop obj (a :: rest) posIdx
      = (setErrorMsg obj ("Unknown option: Near the arg. " ++ a),
          posIdx, ParseOutcome.err (ErrKind.UnknownOption a)) := by
  simp only [parseLoop, h, hfind]

theorem parseLoop_cons_help {a : String} (obj : ArgParser) (posIdx : Nat) (rest : List String)
    {j : Nat} {pdef : PrmDef} (h : determineArgType a = ArgType.Opt)
    (hfind : findOptionalParam obj a = some (j, pdef)) (hh : isHelpOption a = true) :
    parseLoop obj (a :: rest) posIdx = (obj, posIdx, ParseOutcome.exit0 Banner.Help) := by
  simp only [parseLoop, h, hfind, hh, if_true]

theorem parseLoop_cons_version {a : String} (obj : ArgParser) (posIdx : Nat) (rest : List String)
    {j : Nat} {pdef : PrmDef} (h : determineArgType a = ArgType.Opt)
    (hfind : findOptionalParam obj a = some (j, pdef)) (hh : isHelpOption a = false)
    (hv : isVerOption a = true) :
    parseLoop obj (a :: rest) posIdx = (obj, posIdx, ParseOutcome.exit0 Banner.Version) := by
  simp only [parseLoop, h, hfind, hh, hv]
  simp

theorem parseLoop_cons_switchfail {a : String} (obj : ArgParser) (posIdx : Nat) (rest : List String)
    {j : Nat} {pdef pdef' : PrmDef} (h : determineArgType a = ArgType.Opt)
    (hfind : findOptionalParam obj a = some (j, pdef)) (hh : isHelpOption a = false)
    (hv : isVerOption a = false) (ht : pdef.varType = VarType.True)
    (hw : writeArg "1" pdef = (pdef', false)) :
    parseLoop obj (a :: rest) posIdx
      = (setErrorMsg { obj with optPrms := obj.optPrms.set j pdef' }
            ("Invalid value: arg " ++ a ++ ", " ++ pdef.name),
          posIdx, ParseOutcome.err (ErrKind.ConversionFailure a pdef.name)) := by
  simp only [parseLoop, h, hfind, hh, hv, ht, hw]
  simp

theorem parseLoop_cons_switchok {a : String} (obj : ArgParser) (posIdx : Nat) (rest : List String)
    {j : Nat} {pdef pdef' : PrmDef} (h : determineArgType a = ArgType.Opt)
    (hfind : findOptionalParam obj a = some (j, pdef)) (hh : isHelpOption a = false)
    (hv : isVerOption a = false) (ht : pdef.varType = VarType.True)
    (hw : writeArg "1" pdef = (pdef', true)) :
    parseLoop obj (a :: rest) posIdx
      = parseLoop { obj with optPrms := obj.optPrms.set j pdef' } rest posIdx := by
  simp only [parseLoop, h, hfind, hh, hv, ht, hw]
  simp

theorem parseLoop_cons_missing {a : String} (obj : ArgParser) (posIdx : Nat)
    {j : Nat} {pdef : PrmDef} (h : determineArgType a = ArgType.Opt)
    (hfind : findOptionalParam obj a = some (j, pdef)) (hh : isHelpOption a = false)
    (hv : isVerOption a = false) (ht : ¬pdef.varType = VarType.True) :
    parseLoop obj [a] posIdx
      = (setErrorMsg obj ("Lack of the last argument: Near the arg " ++ a ++ "."),
          posIdx, ParseOutcome.err (ErrKind.MissingOptionValue a)) := by
  simp only [parseLoop, h, hfind, hh, hv, ht]
  simp [ht]

theorem parseLoop_cons_valfail {a v : String} (obj : ArgParser) (posIdx : Nat)
    (rest2 : List String) {j : Nat} {pdef pdef' : PrmDef}
    (h : determineArgType a = ArgType.Opt)
    (hfind : findOptionalParam obj a = some (j, pdef)) (hh : isHelpOption a = false)
    (hv : isVerOption a = false) (ht : ¬pdef.varType = VarType.True)
    (hw : writeArg v pdef = (pdef', false)) :
    parseLoop obj (a :: v :: rest2) posIdx
      = (setErrorMsg { obj with optPrms := obj.optPrms.set j pdef' }
            ("Invalid value: arg " ++ v ++ ", " ++ pdef.name),
          posIdx, ParseOutcome.err (ErrKind.ConversionFailure v pdef.name)) := by
  simp only [parseLoop, h, hfind, hh, hv, ht, hw]
  simp [ht]

theorem parseLoop_cons_valok {a v : String} (obj : ArgParser) (posIdx : Nat)
    (rest2 : List String) {j : Nat} {pdef pdef' : PrmDef}
    (h : determineArgType a = ArgType.Opt)
    (hfind : findOptionalParam obj a = some (j, pdef)) (hh : isHelpOption a = false)
    (hv : isVerOption a = false) (ht : ¬pdef.varType = VarType.True)
    (hw : writeArg v pdef = (pdef', true)) :
    parseLoop obj (a :: v :: rest2) posIdx
      = parseLoop { obj with optPrms := obj.optPrms.set j pdef' } rest2 posIdx := by
  simp only [parseLoop, h, hfind, hh, hv, ht, hw]
  simp [ht]

/-- C1 core invariant: over the scan loop, every registered slot is either
untouched or holds a value written by `writeArg` at some processed token
(the switch write uses the constant token `"1"`). -/
theorem parseLoop_dest (obj : ArgParser) (toks : List String) (posIdx : Nat) :
    slotEvol ("1" :: toks) obj.optPrms (parseLoop obj toks posIdx).1.optPrms ∧
    slotEvol ("1" :: toks) obj.posPrms (parseLoop obj toks posIdx).1.posPrms := by
  induction obj, toks, posIdx using parseLoop.induct with
  | case1 obj posIdx =>
    rw [parseLoop_nil]
    exact ⟨slotEvol_refl _ _, slotEvol_refl _ _⟩
  | case2 obj posIdx a rest h =>
    rw [parseLoop_cons_error obj posIdx rest h]
    exact ⟨slotEvol_refl _ _, slotEvol_refl _ _⟩
  | case3 obj posIdx a rest h hget =>
    rw [parseLoop_cons_toomany obj posIdx rest h hget]
    exact ⟨slotEvol_refl _ _, slotEvol_refl _ _⟩
  | case4 obj posIdx a rest h pdef hget pdef' hw =>
    have hpd : pdef' = { pdef with dest := some (convStep a pdef).1 } := by
      have h1 := congrArg Prod.fst hw
      rw [writeArg_eq] at h1
      exact h1.symm
    rw [parseLoop_cons_posfail obj posIdx rest h hget hw]
    refine ⟨slotEvol_refl _ _, slotEvol_set hget hpd ?_⟩
    exact List.mem_cons_of_mem "1" (List.mem_cons_self a rest)
  | case5 obj posIdx a rest h pdef hget pdef' hw ih =>
    have hpd : pdef' = { pdef with dest := some (convStep a pdef).1 } := by
      have h1 := congrArg Prod.fst hw
      rw [writeArg_eq] at h1
      exact h1.symm
    rw [parseLoop_cons_posok obj posIdx rest h hget hw]
    have hsub : ∀ t ∈ ("1" :: rest), t ∈ ("1" :: a :: rest) := by
      intro t htm
      rcases List.mem_cons.mp htm with he | htl
      · exact he ▸ List.mem_cons_self "1" _
      · exact List.mem_cons_of_mem "1" (List.mem_cons_of_mem a htl)
    constructor
    · exact slotEvol_mono hsub ih.1
    · refine slotEvol_trans ?_ (slotEvol_mono hsub ih.2)
      exact slotEvol_set hget hpd (List.mem_cons_of_mem "1" (List.mem_cons_self a rest))
  | case6 obj posIdx a rest h hfind =>
    rw [parseLoop_cons_unknown obj posIdx rest h hfind]
    exact ⟨slotEvol_refl _ _, slotEvol_refl _ _⟩
  | case7 obj posIdx a rest h j pdef hfind hh =>
    rw [parseLoop_cons_help obj posIdx rest h hfind hh]
    exact ⟨slotEvol_refl _ _, slotEvol_refl _ _⟩
  | case8 obj posIdx a rest h j pdef hfind hh hv =>
    simp only [Bool.not_eq_true] at hh
    rw [parseLoop_cons_version obj posIdx rest h hfind hh hv]
    exact ⟨slotEvol_refl _ _, slotEvol_refl _ _⟩
  | case9 obj posIdx a rest h j pdef hfind hh hv ht pdef' hw =>
    simp only [Bool.not_eq_true] at hh hv
    have hget := findOptionalParam_getElem? hfind
    have hpd : pdef' = { pdef with dest := some (convStep "1" pdef).1 } := by
      have h1 := congrArg Prod.fst hw
      rw [writeArg_eq] at h1
      exact h1.symm
    rw [parseLoop_cons_switchfail obj posIdx rest h hfind hh hv ht hw]
    refine ⟨slotEvol_set hget hpd (List.mem_cons_self "1" _), slotEvol_refl _ _⟩
  | case10 obj posIdx a rest h j pdef hfind hh hv ht pdef' hw ih =>
    simp only [Bool.not_eq_true] at hh hv
    have hget := findOptionalParam_getElem? hfind
    have hpd : pdef' = { pdef with dest := some (convStep "1" pdef).1 } := by
      have h1 := congrArg Prod.fst hw
      rw [writeArg_eq] at h1
      exact h1.symm
    rw [parseLoop_cons_switchok obj posIdx rest h hfind hh hv ht hw]
    have hsub : ∀ t ∈ ("1" :: rest), t ∈ ("1" :: a :: rest) := by
      intro t htm
      rcases List.mem_cons.mp htm with he | htl
      · exact he ▸ List.mem_cons_self "1" _
      · exact List.mem_cons_of_mem "1" (List.mem_cons_of_mem a htl)
    constructor
    · refine slotEvol_trans ?_ (slotEvol_mono hsub ih.1)
      exact slotEvol_set hget hpd (List.mem_cons_self "1" _)
    · exact slotEvol_mono hsub ih.2
  | case11 obj posIdx a h j pdef hfind hh hv ht =>
    simp only [Bool.not_eq_true] at hh hv
    rw [parseLoop_cons_missing obj posIdx h hfind hh hv ht]
    exact ⟨slotEvol_refl _ _, slotEvol_refl _ _⟩
  | case12 obj posIdx a h j pdef hfind hh hv ht v rest2 pdef' hw =>
    simp only [Bool.not_eq_true] at hh hv
    have hget := findOptionalParam_getElem? hfind
    have hpd : pdef' = { pdef with dest := some (convStep v pdef).1 } := by
      have h1 := congrArg Prod.fst hw
      rw [writeArg_eq] at h1
      exact h1.symm
    rw [parseLoop_cons_valfail obj posIdx rest2 h hfind hh hv ht hw]
    refine ⟨slotEvol_set hget hpd ?_, slotEvol_refl _ _⟩
    exact List.mem_cons_of_mem "1" (List.mem_cons_of_mem a (List.mem_cons_self v rest2))
  | case13 obj posIdx a h j pdef hfind hh hv ht v rest2 pdef' hw ih =>
    simp only [Bool.not_eq_true] at hh hv
    have hget := findOptionalParam_getElem? hfind
    have hpd : pdef' = { pdef with dest := some (convStep v pdef).1 } := by
      have h1 := congrArg Prod.fst hw
      rw [writeArg_eq] at h1
      exact h1.symm
    rw [parseLoop_cons_valok obj posIdx rest2 h hfind hh hv ht hw]
    have hsub : ∀ t ∈ ("1" :: rest2), t ∈ ("1" :: a :: v :: rest2) := by
      intro t htm
      rcases List.mem_cons.mp htm with he | htl
      · exact he ▸ List.mem_cons_self "1" _
      · exact List.mem_cons_of_mem "1" (List.mem_cons_of_mem a (List.mem_cons_of_mem v htl))
    constructor
    · refine slotEvol_trans ?_ (slotEvol_mono hsub ih.1)
      exact slotEvol_set hget hpd
        (List.mem_cons_of_mem "1" (List.mem_cons_of_mem a (List.mem_cons_self v rest2)))
    · exact slotEvol_mono hsub ih.2

/-! ## Decimal parsing lemmas (for the unsigned-wrap claim) -/

/-- Value denoted by a decimal digit string. -/
def decVal (s : String) : Nat :=
  s.data.foldl (fun a c => a * 10 + (c.toNat - 48)) 0

theorem digitVal?_ten {c : Char} (h0 : '0' ≤ c) (h9 : c ≤ '9') :
    digitVal? 10 c = some (c.toNat - 48) := by
  have hx : hexVal? c = some (c.toNat - 48) := by
    simp [hexVal?, h0, h9]
  have hlt : c.toNat - 48 < 10 := by
    have : c.toNat ≤ 57 := h9
    omega
  simp [digitVal?, hx, hlt]

theorem grabDigits_digits :
    ∀ (cs : List Char) (acc n : Nat), (∀ c ∈ cs, '0' ≤ c ∧ c ≤ '9') →
      grabDigits 10 cs acc n
        = (cs.foldl (fun a c => a * 10 + (c.toNat - 48)) acc, n + cs.length, []) := by
  intro cs
  induction cs with
  | nil => intro acc n _; simp [grabDigits]
  | cons c rest ih =>
    intro acc n hall
    have hc := hall c (List.mem_cons_self c rest)
    simp only [grabDigits, digitVal?_ten hc.1 hc.2]
    rw [ih (acc * 10 + (c.toNat - 48)) (n + 1) (fun x hx => hall x (List.mem_cons_of_mem c hx))]
    simp [List.foldl_cons]
    omega

theorem foldl_dec_ge :
    ∀ (cs : List Char) (acc : Nat), acc ≤ cs.foldl (fun a c => a * 10 + (c.toNat - 48)) acc := by
  intro cs
  induction cs with
  | nil => intro acc; simp
  | cons c rest ih =>
    intro acc
    calc acc ≤ acc * 10 + (c.toNat - 48) := by omega
    _ ≤ _ := by rw [List.foldl_cons]; exact ih _

/-- `strtoul(.., 0)` on a negative decimal token `-d₁d₂…` (no leading zero):
the whole token is consumed and the result is the value negated in
`unsigned long` arithmetic. -/
theorem strtoulCore_neg_dec (c0 : Char) (ds : List Char)
    (h0 : '0' ≤ c0 ∧ c0 ≤ '9') (hnz : c0 ≠ '0')
    (hds : ∀ c ∈ ds, '0' ≤ c ∧ c ≤ '9')
    (hlt : (c0 :: ds).foldl (fun a c => a * 10 + (c.toNat - 48)) 0 < 2 ^ 64) :
    strtoulCore ('-' :: c0 :: ds)
      = (2 ^ 64 - (c0 :: ds).foldl (fun a c => a * 10 + (c.toNat - 48)) 0, []) := by
  have hspace : isSpaceC '-' = false := by decide
  have hall : ∀ c ∈ (c0 :: ds), '0' ≤ c ∧ c ≤ '9' := by
    intro c hc
    rcases List.mem_cons.mp hc with he | ht
    · exact he ▸ h0
    · exact hds c ht
  have hN1 : 1 ≤ (c0 :: ds).foldl (fun a c => a * 10 + (c.toNat - 48)) 0 := by
    rw [List.foldl_cons]
    have hlt0 : ('0' : Char) < c0 := lt_of_le_of_ne h0.1 (Ne.symm hnz)
    have h48 : 48 < c0.toNat := hlt0
    calc 1 ≤ 0 * 10 + (c0.toNat - 48) := by omega
    _ ≤ _ := foldl_dec_ge ds _
  have hgrab := grabDigits_digits (c0 :: ds) 0 0 hall
  have hsign : signSplit ('-' :: c0 :: ds) = (true, c0 :: ds) := rfl
  have hbase : baseDetect (c0 :: ds) = (10, c0 :: ds) := by
    cases ds with
    | nil =>
      simp only [baseDetect]
      split
      next heq => simp at heq
      next heq =>
        rw [List.cons.injEq] at heq
        exact absurd heq.1 hnz
      next => rfl
    | cons c1 dtail =>
      simp only [baseDetect]
      split
      next heq =>
        rw [List.cons.injEq] at heq
        exact absurd heq.1 hnz
      next heq => simp at heq
      next => rfl
  simp only [strtoulCore, List.dropWhile_cons, hspace, Bool.false_eq_true, if_false,
    hsign, hbase, hgrab]
  have hne : ¬(0 + (c0 :: ds).length = 0) := by simp
  rw [if_neg hne]
  have hle : ¬ ULONG_MAX < (c0 :: ds).foldl (fun a c => a * 10 + (c.toNat - 48)) 0 := by
    rw [ULONG_MAX]
    omega
  rw [if_neg hle]
  simp only [if_true]
  rw [Nat.mod_eq_of_lt hlt]
  rw [Nat.mod_eq_of_lt (by omega)]

/-! ## Claim C2: token classification -/

/-- The code's classifier agrees with the spec's ordered rules on every
non-empty token. -/
theorem determineArgType_eq_classifySpec :
    ∀ (t : String), t ≠ "" → determineArgType t = classifySpec t := by
  intro t ht
  obtain ⟨cs⟩ := t
  have hemp : ("" : String) = ⟨[]⟩ := rfl
  have hdashd : ("-" : String).data = ['-'] := rfl
  have hddashd : ("--" : String).data = ['-', '-'] := rfl
  have hne : cs ≠ [] := by
    intro h
    exact ht (by rw [h, hemp])
  match cs, hne with
  | [a], _ =>
    by_cases ha : a = '-'
    · subst ha
      decide
    · simp [determineArgType, classifySpec, String.ext_iff, hdashd, hddashd, ha]
  | [a, b], _ =>
    by_cases ha : a = '-' <;> by_cases hb : b = '-' <;>
      simp_all [determineArgType, classifySpec, String.ext_iff, hdashd, hddashd]
  | a :: b :: c :: r, _ =>
    by_cases ha : a = '-' <;> by_cases hb : b = '-' <;> by_cases hc : c = '-' <;>
      simp_all [determineArgType, classifySpec, String.ext_iff, hdashd, hddashd]

/-- C2: for every non-empty token the classifier `determineArgType` returns
exactly the class prescribed by the spec's ordered rules (`classifySpec`),
and on the spec's examples: `-x`, `--long` are options, `value`, `123` are
positionals, `-`, `--`, `---x` are malformed. -/
theorem claimC2_classifier :
    (∀ (t : String), t ≠ "" → determineArgType t = classifySpec t) ∧
    determineArgType "-x" = ArgType.Opt ∧
    determineArgType "--long" = ArgType.Opt ∧
    determineArgType "value" = ArgType.NoOpt ∧
    determineArgType "123" = ArgType.NoOpt ∧
    determineArgType "-" = ArgType.Error ∧
    determineArgType "--" = ArgType.Error ∧
    determineArgType "---x" = ArgType.Error := by
  refine ⟨determineArgType_eq_classifySpec, ?_, ?_, ?_, ?_, ?_, ?_, ?_⟩ <;> decide

/-- C2 witness: the general part of `claimC2_classifier` applied at the
concrete token `"-x"`. -/
theorem claimC2_witness :
    ("-x" : String) ≠ "" ∧ determineArgType "-x" = classifySpec "-x" :=
  ⟨by decide, claimC2_classifier.1 "-x" (by decide)⟩

/-! Step equations of `ArgParser_parse` on the three loop outcomes. -/

theorem ArgParser_parse_ok {obj : ArgParser} {argv : List String} {o2 : ArgParser} {k : Nat}
    (hpl : parseLoop (writeDefaultParams obj) (argv.drop 1) 0 = (o2, k, ParseOutcome.ok)) :
    ArgParser_parse obj argv
      = if k < o2.posPrms.length ∧ o2.reqFullPosParams = true then
          (setErrorMsg o2 ("Too few positonal arguments: Needs " ++
              toString o2.posPrms.length ++ " args. But has only " ++ toString k ++ " args."),
            ParseOutcome.err (ErrKind.TooFewPositionals o2.posPrms.length k))
        else (o2, ParseOutcome.ok) := by
  simp only [ArgParser_parse, hpl]

theorem ArgParser_parse_err {obj : ArgParser} {argv : List String} {o2 : ArgParser} {k : Nat}
    {e : ErrKind} (hpl : parseLoop (writeDefaultParams obj) (argv.drop 1) 0
      = (o2, k, ParseOutcome.err e)) :
    ArgParser_parse obj argv = (o2, ParseOutcome.err e) := by
  simp only [ArgParser_parse, hpl]

theorem ArgParser_parse_exit {obj : ArgParser} {argv : List String} {o2 : ArgParser} {k : Nat}
    {b : Banner} (hpl : parseLoop (writeDefaultParams obj) (argv.drop 1) 0
      = (o2, k, ParseOutcome.exit0 b)) :
    ArgParser_parse obj argv = (o2, ParseOutcome.exit0 b) := by
  simp only [ArgParser_parse, hpl]

/-! ## Claim C3: help / version short-circuit -/

/-- A parser as built by `ArgParser_new` (used as concrete instance). -/
def c3Obj : ArgParser :=
  match ArgParser_new "prog" "desc" with
  | some o => o
  | none => initParserObj

/-- C3: when the first token matched against the registry is the help
(resp. version) option, parse stops at once with the `exit(0)` outcome after
the corresponding banner, independently of all following tokens (they are
never processed, and the state is exactly the post-default-pass state); and
an `exit(0)` outcome can only arise from a help or version token of argv. -/
theorem claimC3_help_version :
    (∀ (obj : ArgParser) (pn t : String) (rest : List String),
      (findOptionalParam (writeDefaultParams obj) t).isSome = true →
      isHelpOption t = true →
      ArgParser_parse obj (pn :: t :: rest)
        = (writeDefaultParams obj, ParseOutcome.exit0 Banner.Help)) ∧
    (∀ (obj : ArgParser) (pn t : String) (rest : List String),
      (findOptionalParam (writeDefaultParams obj) t).isSome = true →
      isVerOption t = true → isHelpOption t = false →
      ArgParser_parse obj (pn :: t :: rest)
        = (writeDefaultParams obj, ParseOutcome.exit0 Banner.Version)) ∧
    (∀ (obj : ArgParser) (argv : List String) (b : Banner),
      (ArgParser_parse obj argv).2 = ParseOutcome.exit0 b →
      ∃ t, t ∈ argv.drop 1 ∧
        ((b = Banner.Help ∧ isHelpOption t = true) ∨
         (b = Banner.Version ∧ isVerOption t = true))) := by
  refine ⟨?_, ?_, ?_⟩
  · intro obj pn t rest hfindS hh
    obtain ⟨x, hfind⟩ := Option.isSome_iff_exists.mp hfindS
    obtain ⟨j, q⟩ := x
    have ht2 : t = "-h" ∨ t = "--help" := by simpa [isHelpOption] using hh
    have hdet : determineArgType t = ArgType.Opt := by
      rcases ht2 with h1 | h1 <;> subst h1 <;> decide
    have hstep := parseLoop_cons_help (writeDefaultParams obj) 0 rest hdet hfind hh
    simp only [ArgParser_parse, List.drop_succ_cons, List.drop_zero, hstep]
  · intro obj pn t rest hfindS hv hh
    obtain ⟨x, hfind⟩ := Option.isSome_iff_exists.mp hfindS
    obtain ⟨j, q⟩ := x
    have ht2 : t = "-v" ∨ t = "--version" := by simpa [isVerOption] using hv
    have hdet : determineArgType t = ArgType.Opt := by
      rcases ht2 with h1 | h1 <;> subst h1 <;> decide
    have hstep := parseLoop_cons_version (writeDefaultParams obj) 0 rest hdet hfind hh hv
    simp only [ArgParser_parse, List.drop_succ_cons, List.drop_zero, hstep]
  · intro obj argv b hb
    rcases hpl : parseLoop (writeDefaultParams obj) (argv.drop 1) 0 with ⟨o2, k, r⟩
    have hsrc := parseLoop_exit_src (writeDefaultParams obj) (argv.drop 1) 0 b
    rw [hpl] at hsrc
    cases r with
    | ok =>
      rw [ArgParser_parse_ok hpl] at hb
      split at hb <;> simp at hb
    | err k' =>
      rw [ArgParser_parse_err hpl] at hb
      simp at hb
    | exit0 b' =>
      rw [ArgParser_parse_exit hpl] at hb
      simp at hb
      subst hb
      exact hsrc rfl

/-- C3 witness: `claimC3_help_version` applied at a parser freshly built by
`ArgParser_new` and the argv `[prog, -h, ignored]`. -/
theorem claimC3_witness :
    (findOptionalParam (writeDefaultParams c3Obj) "-h").isSome = true ∧
    isHelpOption "-h" = true ∧
    ArgParser_parse c3Obj ["prog", "-h", "ignored"]
      = (writeDefaultParams c3Obj, ParseOutcome.exit0 Banner.Help) :=
  ⟨by decide, by decide,
    claimC3_help_version.1 c3Obj "prog" "-h" ["ignored"] (by decide) (by decide)⟩

/-! ## Claim C4: value-taking options consume exactly one token -/

/-- Parser with an int option `-i` `--iparam` (default 0), built by the API. -/
def c4Obj : ArgParser :=
  match ArgParser_new "prog" "desc" with
  | some o => (ArgParser_addInt o 0 "-i" "--iparam" "iparam" "int parameter").1
  | none => initParserObj

/-- C4: a matched non-switch option that is the last token fails with the
missing-value error naming the option and rewrites no destination; otherwise
the immediately following token is converted into the destination and the
scan resumes after it.  Concretely for an int option `-i` (default 0):
`[-i, 42]` stores 42 and succeeds; `[-i]` alone fails with
`MissingOptionValue` and the destination keeps the default 0. -/
theorem claimC4_option_value :
    (∀ (obj : ArgParser) (t : String) (posIdx j : Nat) (q : PrmDef),
      determineArgType t = ArgType.Opt →
      findOptionalParam obj t = some (j, q) →
      isHelpOption t = false → isVerOption t = false → ¬q.varType = VarType.True →
      parseLoop obj [t] posIdx
        = (setErrorMsg obj ("Lack of the last argument: Near the arg " ++ t ++ "."),
            posIdx, ParseOutcome.err (ErrKind.MissingOptionValue t))) ∧
    (∀ (obj : ArgParser) (t v : String) (rest : List String) (posIdx j : Nat) (q : PrmDef),
      determineArgType t = ArgType.Opt →
      findOptionalParam obj t = some (j, q) →
      isHelpOption t = false → isVerOption t = false → ¬q.varType = VarType.True →
      (convStep v q).2 = true →
      parseLoop obj (t :: v :: rest) posIdx
        = parseLoop
            { obj with optPrms := obj.optPrms.set j { q with dest := some (convStep v q).1 } }
            rest posIdx) ∧
    (ArgParser_parse c4Obj ["prog", "-i", "42"]).2 = ParseOutcome.ok ∧
    ((ArgParser_parse c4Obj ["prog", "-i", "42"]).1.optPrms[2]?).map PrmDef.dest
      = some (some (DestVal.i 42)) ∧
    (ArgParser_parse c4Obj ["prog", "-i"]).2
      = ParseOutcome.err (ErrKind.MissingOptionValue "-i") ∧
    ((ArgParser_parse c4Obj ["prog", "-i"]).1.optPrms[2]?).map PrmDef.dest
      = some (some (DestVal.i 0)) := by
  refine ⟨?_, ?_, by decide, by decide, by decide, by decide⟩
  · intro obj t posIdx j q hdet hfind hh hv ht
    exact parseLoop_cons_missing obj posIdx hdet hfind hh hv ht
  · intro obj t v rest posIdx j q hdet hfind hh hv ht hc
    have hw : writeArg v q = ({ q with dest := some (convStep v q).1 }, true) := by
      rw [writeArg_eq, hc]
    exact parseLoop_cons_valok obj posIdx rest hdet hfind hh hv ht hw

/-- Parameter and parser literals for the C4 witness. -/
def c4wPd : PrmDef :=
  { sOpt := "-i", lOpt := "--iparam", name := "iparam", desc := "ip",
    varType := VarType.Int, defVal := Val.i 0, dest := none }

def c4wObj : ArgParser :=
  { initParserObj with optPrms := [c4wPd] }

/-- C4 witness: the missing-value part of `claimC4_option_value` applied at a
one-option parser and the lone token `-i`. -/
theorem claimC4_witness :
    determineArgType "-i" = ArgType.Opt ∧
    findOptionalParam c4wObj "-i" = some (0, c4wPd) ∧
    parseLoop c4wObj ["-i"] 0
      = (setErrorMsg c4wObj ("Lack of the last argument: Near the arg " ++ "-i" ++ "."),
          0, ParseOutcome.err (ErrKind.MissingOptionValue "-i")) :=
  ⟨by decide, by decide,
    claimC4_option_value.1 c4wObj "-i" 0 0 c4wPd (by decide) (by decide) (by decide)
      (by decide) (by decide)⟩

/-! ## Claim C5: fixed capacity 32 per registry sequence -/

/-- C5: a registration hitting a full sequence (32 entries) fails with the
capacity error leaving the registry untouched; with 31 optional entries the
registration that fills the 32nd slot still succeeds; and `ArgParser_new`
starts with 2 auto-registered optional parameters (help, version), so the
32-entry limit is counted against those. -/
theorem claimC5_capacity :
    (∀ (obj : ArgParser) (vt : VarType) (dv : Val) (s l n d : String),
      isOptParam s l = true → APARSER_MAX_ARG_PRMS ≤ obj.optPrms.length →
      addParam obj vt dv s l n d
        = (setErrorMsg obj "Maximum number of optional parameters reached.\n",
            RegResult.err ErrKind.CapacityExceeded)) ∧
    (∀ (obj : ArgParser) (vt : VarType) (dv : Val) (s l n d : String),
      isOptParam s l = false → APARSER_MAX_ARG_PRMS ≤ obj.posPrms.length →
      addParam obj vt dv s l n d
        = (setErrorMsg obj "Maximum number of positional parameters reached.\n",
            RegResult.err ErrKind.CapacityExceeded)) ∧
    (∀ (obj : ArgParser) (z : Int) (s l n d : String),
      isOptParam s l = true → obj.optPrms.length = 31 →
      obj.bufIdx + s.length + l.length + n.length + d.length + 4 ≤ APARSER_MAX_BUF →
      (addParam obj VarType.Int (Val.i z) s l n d).2 = RegResult.ok ∧
      (addParam obj VarType.Int (Val.i z) s l n d).1.optPrms.length
        = APARSER_MAX_ARG_PRMS) ∧
    (ArgParser_new "prog" "desc").map (fun o => o.optPrms.length) = some 2 := by
  refine ⟨?_, ?_, ?_, by decide⟩
  · intro obj vt dv s l n d hopt hcap
    simp [addParam, hopt, hcap, setErrorMsg]
  · intro obj vt dv s l n d hopt hcap
    simp [addParam, hopt, hcap, setErrorMsg]
  · intro obj z s l n d hopt hlen hbuf
    rw [APARSER_MAX_BUF] at hbuf
    have h1 : ¬ (4096 - obj.bufIdx < s.length + 1) := by omega
    have h2 : ¬ (4096 - (obj.bufIdx + (s.length + 1)) < l.length + 1) := by omega
    have h3 : ¬ (4096 - (obj.bufIdx + (s.length + 1) + (l.length + 1)) < n.length + 1) := by
      omega
    have h4 : ¬ (4096 - (obj.bufIdx + (s.length + 1) + (l.length + 1) + (n.length + 1))
        < d.length + 1) := by omega
    simp [addParam, addParamCont, defValCopy, copyStr, storeDefVal, hopt, hlen,
      APARSER_MAX_ARG_PRMS, APARSER_MAX_BUF, h1, h2, h3, h4]

/-- Parameter and parser literals for the C5 witness. -/
def c5Pd : PrmDef :=
  { sOpt := "-z", lOpt := "", name := "z", desc := "zd",
    varType := VarType.Int, defVal := Val.i 0, dest := none }

def c5FullObj : ArgParser :=
  { initParserObj with optPrms := List.replicate 32 c5Pd }

def c5AlmostObj : ArgParser :=
  { initParserObj with optPrms := List.replicate 31 c5Pd }

/-- C5 witness: `claimC5_capacity` applied at a full (32-entry) and an
almost-full (31-entry) optional registry. -/
theorem claimC5_witness :
    isOptParam "-q" "" = true ∧
    APARSER_MAX_ARG_PRMS ≤ c5FullObj.optPrms.length ∧
    addParam c5FullObj VarType.Int (Val.i 0) "-q" "" "q" "qd"
      = (setErrorMsg c5FullObj "Maximum number of optional parameters reached.\n",
          RegResult.err ErrKind.CapacityExceeded) ∧
    c5AlmostObj.optPrms.length = 31 ∧
    (addParam c5AlmostObj VarType.Int (Val.i 0) "-q" "" "q" "qd").2 = RegResult.ok ∧
    (addParam c5AlmostObj VarType.Int (Val.i 0) "-q" "" "q" "qd").1.optPrms.length
      = APARSER_MAX_ARG_PRMS :=
  ⟨by decide, by decide,
    claimC5_capacity.1 c5FullObj VarType.Int (Val.i 0) "-q" "" "q" "qd"
      (by decide) (by decide),
    by decide,
    (claimC5_capacity.2.2.1 c5AlmostObj 0 "-q" "" "q" "qd"
      (by decide) (by decide) (by decide)).1,
    (claimC5_capacity.2.2.1 c5AlmostObj 0 "-q" "" "q" "qd"
      (by decide) (by decide) (by decide)).2⟩

/-! ## Claim C6: positional arity -/

/-- Parser with two positional int parameters (defaults 200 and 300). -/
def c6Obj : ArgParser :=
  match ArgParser_new "prog" "desc" with
  | some o =>
    (ArgParser_addInt (ArgParser_addInt o 200 "" "" "pos1" "first").1
      300 "" "" "pos2" "second").1
  | none => initParserObj

/-- C6: when the scan loop completes normally having filled `k` of the `n`
registered positional parameters with `k < n`: in strict mode parse fails
with the too-few error reporting `n` and `k`; otherwise parse succeeds and
every unfilled positional destination still holds the value written by the
default pass.  Concretely with two positional ints (defaults 200/300), in
strict mode `[7]` fails with `TooFewPositionals 2 1`, otherwise it succeeds
with the second destination still 300. -/
theorem claimC6_positional_arity :
    (∀ (obj : ArgParser) (pn : String) (toks : List String),
      (parseLoop (writeDefaultParams obj) toks 0).2.2 = ParseOutcome.ok →
      (parseLoop (writeDefaultParams obj) toks 0).2.1 < obj.posPrms.length →
      (obj.reqFullPosParams = true →
        (ArgParser_parse obj (pn :: toks)).2
          = ParseOutcome.err (ErrKind.TooFewPositionals obj.posPrms.length
              (parseLoop (writeDefaultParams obj) toks 0).2.1)) ∧
      (obj.reqFullPosParams = false →
        (ArgParser_parse obj (pn :: toks)).2 = ParseOutcome.ok ∧
        ∀ j, (parseLoop (writeDefaultParams obj) toks 0).2.1 ≤ j →
          (ArgParser_parse obj (pn :: toks)).1.posPrms[j]?
            = (obj.posPrms.map writeDefaultValue)[j]?)) ∧
    (ArgParser_parse (ArgParser_requireFullPosParams c6Obj) ["prog", "7"]).2
      = ParseOutcome.err (ErrKind.TooFewPositionals 2 1) ∧
    (ArgParser_parse c6Obj ["prog", "7"]).2 = ParseOutcome.ok ∧
    ((ArgParser_parse c6Obj ["prog", "7"]).1.posPrms[0]?).map PrmDef.dest
      = some (some (DestVal.i 7)) ∧
    ((ArgParser_parse c6Obj ["prog", "7"]).1.posPrms[1]?).map PrmDef.dest
      = some (some (DestVal.i 300)) := by
  refine ⟨?_, by decide, by decide, by decide, by decide⟩
  intro obj pn toks hok hlt
  rcases hpl : parseLoop (writeDefaultParams obj) toks 0 with ⟨o2, k, r⟩
  have hrr : (parseLoop (writeDefaultParams obj) toks 0).2.2 = r := by rw [hpl]
  rw [hrr] at hok
  have hkk : (parseLoop (writeDefaultParams obj) toks 0).2.1 = k := by rw [hpl]
  rw [hkk] at hlt
  have hred : ((o2, k, r) : ArgParser × Nat × ParseOutcome).2.1 = k := rfl
  rw [hred]
  cases r with
  | err k' => simp at hok
  | exit0 b => simp at hok
  | ok =>
    have hstate := parseLoop_state (writeDefaultParams obj) toks 0
    rw [hpl] at hstate
    obtain ⟨-, -, -, -, -, hreq, -, -, -, hsig, -, huntouched⟩ := hstate
    have hlen : o2.posPrms.length = obj.posPrms.length := by
      have := congrArg List.length hsig
      simpa [List.length_map, writeDefaultParams] using this
    have hreq2 : o2.reqFullPosParams = obj.reqFullPosParams := hreq
    have hpl' : parseLoop (writeDefaultParams obj) ((pn :: toks).drop 1) 0
        = (o2, k, ParseOutcome.ok) := by simpa using hpl
    constructor
    · intro hflag
      rw [ArgParser_parse_ok hpl']
      rw [if_pos ⟨by omega, by rw [hreq2, hflag]⟩]
      simp [hlen]
    · intro hflag
      rw [ArgParser_parse_ok hpl']
      rw [if_neg (by rw [hreq2, hflag]; simp)]
      refine ⟨rfl, ?_⟩
      intro j hj
      have h1 := huntouched rfl j (by simpa using hj)
      simpa [writeDefaultParams] using h1

/-- Parameter and parser literals for the C6 witness. -/
def c6wPd1 : PrmDef :=
  { sOpt := "", lOpt := "", name := "pos1", desc := "p1",
    varType := VarType.Int, defVal := Val.i 200, dest := none }

def c6wPd2 : PrmDef :=
  { sOpt := "", lOpt := "", name := "pos2", desc := "p2",
    varType := VarType.Int, defVal := Val.i 300, dest := none }

def c6wObj : ArgParser :=
  { initParserObj with posPrms := [c6wPd1, c6wPd2], reqFullPosParams := true }

/-- C6 witness: `claimC6_positional_arity` applied at a strict two-positional
parser given a single positional token. -/
theorem claimC6_witness :
    (parseLoop (writeDefaultParams c6wObj) ["7"] 0).2.2 = ParseOutcome.ok ∧
    (parseLoop (writeDefaultParams c6wObj) ["7"] 0).2.1 < c6wObj.posPrms.length ∧
    c6wObj.reqFullPosParams = true ∧
    (ArgParser_parse c6wObj ["prog", "7"]).2
      = ParseOutcome.err (ErrKind.TooFewPositionals c6wObj.posPrms.length
          (parseLoop (writeDefaultParams c6wObj) ["7"] 0).2.1) :=
  ⟨by decide, by decide, by decide,
    (claimC6_positional_arity.1 c6wObj "prog" ["7"] (by decide) (by decide)).1 (by decide)⟩

/-! ## Claim C7: switch parameters -/

/-- One conversion of the constant token `"1"` at a switch parameter always
succeeds and produces `true`. -/
theorem convStep_one_true {q : PrmDef} (ht : q.varType = VarType.True) :
    convStep "1" q = (DestVal.b true, true) := by
  simp only [convStep, ht]
  decide

/-- `copyStr` only advances the arena index (and on failure sets the error
message): the registries are untouched. -/
theorem copyStr_fst (obj : ArgParser) (str : String) :
    (copyStr obj str).1.optPrms = obj.optPrms ∧ (copyStr obj str).1.posPrms = obj.posPrms := by
  rw [copyStr]
  split <;> simp [setErrorMsg]

/-- Parser with a switch parameter `-w` `--switchparam`, built by the API. -/
def c7Obj : ArgParser :=
  match ArgParser_new "prog" "desc" with
  | some o => (ArgParser_addTrue o "-w" "--switchparam" "switch_param" "sw").1
  | none => initParserObj

/-- C7: a switch (`True`-kind) registration stores `false` as default no
matter what default reaches `addParam`; a matched switch token writes `true`
into its destination and the scan resumes at the very next token (no value
token is consumed); and a switch whose option tokens never resolve in argv
still holds `false` after parse.  Concretely `-w` present sets the
destination true, absent leaves it false. -/
theorem claimC7_switch :
    (∀ (obj obj' : ArgParser) (dv : Val) (s l n d : String),
      addParam obj VarType.True dv s l n d = (obj', RegResult.ok) →
      isOptParam s l = true →
      ∃ pd, obj'.optPrms = obj.optPrms ++ [pd] ∧ pd.varType = VarType.True ∧
        pd.defVal = Val.b false ∧ pd.dest = none ∧ obj'.posPrms = obj.posPrms) ∧
    (∀ (obj : ArgParser) (t : String) (rest : List String) (posIdx j : Nat) (q : PrmDef),
      determineArgType t = ArgType.Opt →
      findOptionalParam obj t = some (j, q) →
      isHelpOption t = false → isVerOption t = false → q.varType = VarType.True →
      parseLoop obj (t :: rest) posIdx
        = parseLoop
            { obj with optPrms := obj.optPrms.set j { q with dest := some (DestVal.b true) } }
            rest posIdx) ∧
    (∀ (obj : ArgParser) (argv : List String) (j : Nat) (q : PrmDef),
      obj.optPrms[j]? = some q → q.varType = VarType.True → q.defVal = Val.b false →
      (∀ t ∈ argv.drop 1,
        (findOptionalParam (writeDefaultParams obj) t).map Prod.fst ≠ some j) →
      ∃ q', (ArgParser_parse obj argv).1.optPrms[j]? = some q' ∧
        q'.dest = some (DestVal.b false)) ∧
    ((ArgParser_parse c7Obj ["prog", "-w"]).1.optPrms[2]?).map PrmDef.dest
      = some (some (DestVal.b true)) ∧
    (ArgParser_parse c7Obj ["prog", "-w"]).2 = ParseOutcome.ok ∧
    ((ArgParser_parse c7Obj ["prog"]).1.optPrms[2]?).map PrmDef.dest
      = some (some (DestVal.b false)) := by
  refine ⟨?_, ?_, ?_, by decide, by decide, by decide⟩
  · intro obj obj' dv s l n d h hopt
    rw [addParam] at h
    rw [hopt] at h
    simp only [if_true] at h
    split at h
    · exact absurd (congrArg Prod.snd h) (by simp)
    · rw [addParamCont] at h
      rw [show defValCopy obj VarType.True dv = (obj, some (Val.b false)) from rfl] at h
      dsimp only at h
      rcases h2 : copyStr obj s with ⟨obj2, os2⟩
      rw [h2] at h
      cases os2 with
      | none => exact absurd (congrArg Prod.snd h) (by simp)
      | some sC =>
        dsimp only at h
        rcases h3 : copyStr obj2 l with ⟨obj3, os3⟩
        rw [h3] at h
        cases os3 with
        | none => exact absurd (congrArg Prod.snd h) (by simp)
        | some lC =>
          dsimp only at h
          rcases h4 : copyStr obj3 n with ⟨obj4, os4⟩
          rw [h4] at h
          cases os4 with
          | none => exact absurd (congrArg Prod.snd h) (by simp)
          | some nC =>
            dsimp only at h
            rcases h5 : copyStr obj4 d with ⟨obj5, os5⟩
            rw [h5] at h
            cases os5 with
            | none => exact absurd (congrArg Prod.snd h) (by simp)
            | some dC =>
              dsimp only at h
              rw [hopt] at h
              simp only [if_true] at h
              have h1 := congrArg Prod.fst h
              simp only at h1
              have ho2 := copyStr_fst obj s
              have ho3 := copyStr_fst obj2 l
              have ho4 := copyStr_fst obj3 n
              have ho5 := copyStr_fst obj4 d
              rw [h2] at ho2
              rw [h3] at ho3
              rw [h4] at ho4
              rw [h5] at ho5
              refine ⟨{ sOpt := sC, lOpt := lC, name := nC, desc := dC,
                        varType := VarType.True, defVal := Val.b false, dest := none },
                      ?_, rfl, rfl, rfl, ?_⟩
              · rw [← h1]
                show obj5.optPrms ++ _ = obj.optPrms ++ _
                rw [ho5.1, ho4.1, ho3.1, ho2.1]
              · rw [← h1]
                show obj5.posPrms = obj.posPrms
                rw [ho5.2, ho4.2, ho3.2, ho2.2]
  · intro obj t rest posIdx j q hdet hfind hh hv ht
    have hw : writeArg "1" q = ({ q with dest := some (DestVal.b true) }, true) := by
      rw [writeArg_eq, convStep_one_true ht]
    exact parseLoop_cons_switchok obj posIdx rest hdet hfind hh hv ht hw
  · intro obj argv j q hget ht hdef hno
    have hwd : (writeDefaultParams obj).optPrms[j]? = some (writeDefaultValue q) := by
      simp [writeDefaultParams, List.getElem?_map, hget]
    have hdest : (writeDefaultValue q).dest = some (DestVal.b false) := by
      simp [writeDefaultValue, defaultWrittenVal, ht, hdef, Val.asB]
    rcases hpl : parseLoop (writeDefaultParams obj) (argv.drop 1) 0 with ⟨o2, k, r⟩
    have huntouch := parseLoop_opt_untouched (writeDefaultParams obj) (argv.drop 1) 0 j hno
    rw [hpl] at huntouch
    have ho2 : o2.optPrms[j]? = some (writeDefaultValue q) := by
      have : ((o2, k, r) : ArgParser × Nat × ParseOutcome).1.optPrms[j]?
          = (writeDefaultParams obj).optPrms[j]? := huntouch
      rw [hwd] at this
      exact this
    cases r with
    | ok =>
      rw [ArgParser_parse_ok hpl]
      split
      · exact ⟨writeDefaultValue q, by simp [setErrorMsg, ho2], hdest⟩
      · exact ⟨writeDefaultValue q, ho2, hdest⟩
    | err e =>
      rw [ArgParser_parse_err hpl]
      exact ⟨writeDefaultValue q, ho2, hdest⟩
    | exit0 b =>
      rw [ArgParser_parse_exit hpl]
      exact ⟨writeDefaultValue q, ho2, hdest⟩

/-- Parameter and parser literals for the C7 witness. -/
def c7wPd : PrmDef :=
  { sOpt := "-w", lOpt := "--switchparam", name := "switch_param", desc := "sw",
    varType := VarType.True, defVal := Val.b false, dest := none }

def c7wObj : ArgParser :=
  { initParserObj with optPrms := [c7wPd] }

/-- C7 witness: the switch-write part of `claimC7_switch` applied at a
one-switch parser and the token `-w`. -/
theorem claimC7_witness :
    determineArgType "-w" = ArgType.Opt ∧
    findOptionalParam c7wObj "-w" = some (0, c7wPd) ∧
    c7wPd.varType = VarType.True ∧
    parseLoop c7wObj ["-w"] 0
      = parseLoop
          { c7wObj with
            optPrms := c7wObj.optPrms.set 0 { c7wPd with dest := some (DestVal.b true) } }
          [] 0 :=
  ⟨by decide, by decide, rfl,
    claimC7_switch.2.1 c7wObj "-w" [] 0 0 c7wPd (by decide) (by decide) (by decide)
      (by decide) rfl⟩

/-! ## Claim C8: string truncation -/

/-- C8: a string-kind conversion always succeeds and stores the token clipped
to `maxLength - 1` characters (the `strncpy(p, arg, len); p[len-1] = 0`
contract); with `maxLength = 5`, `"hello world"` is stored as `"hell"`. -/
theorem claimC8_string_truncate :
    (∀ (arg : String) (p : PrmDef) (sv : StrVal),
      p.varType = VarType.String → p.defVal = Val.s sv →
      writeArg arg p
        = ({ p with dest := some (DestVal.s (strTake arg (sv.len - 1))) }, true)) ∧
    (∀ (s : String) (n : Nat), (strTake s n).data = s.data.take n ∧ (strTake s n).length ≤ n) ∧
    strTake "hello world" (5 - 1) = "hell" := by
  refine ⟨?_, ?_, by decide⟩
  · intro arg p sv ht hdef
    rw [writeArg_eq]
    simp [convStep, ht, hdef, Val.asStr]
  · intro s n
    refine ⟨rfl, ?_⟩
    show (String.mk (s.data.take n)).length ≤ n
    have : (String.mk (s.data.take n)).length = (s.data.take n).length := rfl
    rw [this]
    exact s.data.length_take_le n

/-- Parameter literal for the C8 witness. -/
def c8wPd : PrmDef :=
  { sOpt := "-s", lOpt := "--str", name := "str", desc := "sd",
    varType := VarType.String, defVal := Val.s ⟨"abc", 5⟩, dest := none }

/-- C8 witness: `claimC8_string_truncate` applied at a `maxLength = 5` string
parameter and the token `"hello world"`. -/
theorem claimC8_witness :
    c8wPd.varType = VarType.String ∧ c8wPd.defVal = Val.s ⟨"abc", 5⟩ ∧
    writeArg "hello world" c8wPd
      = ({ c8wPd with dest := some (DestVal.s (strTake "hello world" (5 - 1))) }, true) :=
  ⟨rfl, rfl, claimC8_string_truncate.1 "hello world" c8wPd ⟨"abc", 5⟩ rfl rfl⟩

/-! ## Claim C9: negative tokens at unsigned parameters wrap silently -/

/-- A decimal token with a non-zero leading digit denotes a positive value. -/
theorem decVal_head_pos {c0 : Char} (cs' : List Char) (h0 : '0' ≤ c0) (hnz : c0 ≠ '0') :
    1 ≤ (c0 :: cs').foldl (fun a c => a * 10 + (c.toNat - 48)) 0 := by
  rw [List.foldl_cons]
  have hlt0 : ('0' : Char) < c0 := lt_of_le_of_ne h0 (Ne.symm hnz)
  have h48 : 48 < c0.toNat := hlt0
  calc 1 ≤ 0 * 10 + (c0.toNat - 48) := by omega
  _ ≤ _ := foldl_dec_ge cs' _

/-- C9: at an unsigned parameter (`UInt` or `UInt32`), a negative decimal
token `-N` (no leading zero, magnitude below 2^64) is accepted without a
trailing-character error and the destination receives the token's integer
value `-N` silently truncated modulo 2^32; the conversion fails exactly when
a non-numeric trailing character remains; in particular `-1` stores
4294967295. -/
theorem claimC9_unsigned_wrap :
    (∀ (p : PrmDef) (ds : String),
      ds.data ≠ [] → (∀ c ∈ ds.data, '0' ≤ c ∧ c ≤ '9') → ds.data.head? ≠ some '0' →
      decVal ds < 2 ^ 64 →
      (p.varType = VarType.UInt →
        writeArg ("-" ++ ds) p
          = ({ p with dest := some (DestVal.u ((-(decVal ds : Int) % (2 ^ 32 : Int)).toNat)) },
              true)) ∧
      (p.varType = VarType.UInt32 →
        writeArg ("-" ++ ds) p
          = ({ p with
                dest := some (DestVal.u32 ((-(decVal ds : Int) % (2 ^ 32 : Int)).toNat)) },
              true))) ∧
    (∀ (p : PrmDef) (arg : String), p.varType = VarType.UInt ∨ p.varType = VarType.UInt32 →
      ((writeArg arg p).2 = false ↔ (strtoul0 arg).2 ≠ "")) ∧
    (∀ (p : PrmDef), p.varType = VarType.UInt →
      writeArg "-1" p = ({ p with dest := some (DestVal.u 4294967295) }, true)) := by
  refine ⟨?_, ?_, ?_⟩
  · intro p ds hne hdig h0 hlt
    obtain ⟨cs⟩ := ds
    match cs, hne with
    | c0 :: cs', _ =>
      have hd0 : c0 ≠ '0' := by
        intro he
        exact h0 (by rw [he]; rfl)
      have hc0 := hdig c0 (List.mem_cons_self c0 cs')
      have hcs' : ∀ c ∈ cs', '0' ≤ c ∧ c ≤ '9' :=
        fun c hc => hdig c (List.mem_cons_of_mem c0 hc)
      have hNval : decVal ⟨c0 :: cs'⟩
          = (c0 :: cs').foldl (fun a c => a * 10 + (c.toNat - 48)) 0 := rfl
      have hNlt : (c0 :: cs').foldl (fun a c => a * 10 + (c.toNat - 48)) 0 < 2 ^ 64 := by
        rw [← hNval]
        exact hlt
      have hcore := strtoulCore_neg_dec c0 cs' hc0 hd0 hcs' hNlt
      have happ : (("-" ++ String.mk (c0 :: cs')) : String).data = '-' :: c0 :: cs' := rfl
      have hstr : strtoul0 ("-" ++ String.mk (c0 :: cs'))
          = (2 ^ 64 - (c0 :: cs').foldl (fun a c => a * 10 + (c.toNat - 48)) 0, "") := by
        rw [strtoul0, happ, hcore]
      have hN1 := decVal_head_pos cs' hc0.1 hd0
      have hmod : (2 ^ 64 - (c0 :: cs').foldl (fun a c => a * 10 + (c.toNat - 48)) 0) % 2 ^ 32
          = (-(decVal ⟨c0 :: cs'⟩ : Int) % (2 ^ 32 : Int)).toNat := by
        rw [hNval]
        omega
      constructor
      · intro ht
        rw [writeArg_eq]
        simp only [convStep, ht, hstr, hmod]
        rfl
      · intro ht
        rw [writeArg_eq]
        simp only [convStep, ht, hstr, hmod]
        rfl
  · intro p arg ht
    rw [writeArg_eq]
    rcases ht with ht | ht <;>
      simp only [convStep, ht] <;>
      constructor <;> (intro hb; simpa using hb)
  · intro p ht
    rw [writeArg_eq]
    have hstr : strtoul0 "-1" = (18446744073709551615, "") := by decide
    simp only [convStep, ht, hstr]
    norm_num

/-- Parameter literal for the C9 witness. -/
def c9wPd : PrmDef :=
  { sOpt := "-u", lOpt := "--u", name := "u", desc := "ud",
    varType := VarType.UInt, defVal := Val.u 0, dest := none }

/-- C9 witness: `claimC9_unsigned_wrap` applied at an unsigned parameter and
the token `-25`. -/
theorem claimC9_witness :
    ("25" : String).data ≠ [] ∧
    (∀ c ∈ ("25" : String).data, '0' ≤ c ∧ c ≤ '9') ∧
    ("25" : String).data.head? ≠ some '0' ∧
    decVal "25" < 2 ^ 64 ∧
    writeArg ("-" ++ "25") c9wPd
      = ({ c9wPd with
            dest := some (DestVal.u ((-(decVal "25" : Int) % (2 ^ 32 : Int)).toNat)) },
          true) :=
  ⟨by decide, by decide, by decide, by decide,
    (claimC9_unsigned_wrap.1 c9wPd "25" (by decide) (by decide) (by decide) (by decide)).1 rfl⟩

/-! ## Claim C10: registration is atomic on failure -/

/-- Everything of a parser state except the arena index and the error
message. -/
def coreSig (a : ArgParser) :
    String × String × String × String × String × Bool × List PrmDef × List PrmDef × Bool :=
  (a.progName, a.progDesc, a.version, a.date, a.author, a.reqFullPosParams,
    a.optPrms, a.posPrms, a.hasError)

theorem setErrorMsg_coreSig (obj : ArgParser) (m : String) :
    coreSig (setErrorMsg obj m) = coreSig obj := rfl

theorem copyStr_coreSig (obj : ArgParser) (str : String) :
    coreSig (copyStr obj str).1 = coreSig obj := by
  rw [copyStr]
  split <;> rfl

theorem defValCopy_coreSig (obj : ArgParser) (vt : VarType) (dv : Val) :
    coreSig (defValCopy obj vt dv).1 = coreSig obj := by
  cases vt <;> try rfl
  rw [defValCopy]
  rcases hc : copyStr obj dv.asStr.data with ⟨obj1, os⟩
  have h1 := copyStr_coreSig obj dv.asStr.data
  rw [hc] at h1
  cases os <;> simpa [setErrorMsg_coreSig] using h1

/-- C10: a failing registration leaves the observable parser state untouched:
both registries (hence both parameter counts) and the arena index keep their
prior values, as does every other field except the error message. -/
theorem claimC10_atomic :
    ∀ (obj : ArgParser) (vt : VarType) (dv : Val) (s l n d : String)
      (obj' : ArgParser) (r : RegResult),
      addParam obj vt dv s l n d = (obj', r) → r ≠ RegResult.ok →
      coreSig obj' = coreSig obj ∧ obj'.bufIdx = obj.bufIdx ∧
      obj'.optPrms.length = obj.optPrms.length ∧
      obj'.posPrms.length = obj.posPrms.length := by
  have main : ∀ (obj : ArgParser) (vt : VarType) (dv : Val) (s l n d : String)
      (obj' : ArgParser) (r : RegResult),
      addParam obj vt dv s l n d = (obj', r) → r ≠ RegResult.ok →
      coreSig obj' = coreSig obj ∧ obj'.bufIdx = obj.bufIdx := by
    intro obj vt dv s l n d obj' r heq hr
    rw [addParam] at heq
    split at heq
    · split at heq
      · have h1 := congrArg Prod.fst heq
        simp only at h1
        subst h1
        exact ⟨setErrorMsg_coreSig obj _, rfl⟩
      · -- addParamCont
        rw [addParamCont] at heq
        rcases hdc : defValCopy obj vt dv with ⟨obj1, od⟩
        rw [hdc] at heq
        have hcore1 : coreSig obj1 = coreSig obj := by
          have := defValCopy_coreSig obj vt dv
          rw [hdc] at this
          exact this
        cases od with
        | none =>
          dsimp only at heq
          have h1 := congrArg Prod.fst heq
          simp only at h1
          subst h1
          exact ⟨hcore1, rfl⟩
        | some dvv =>
          dsimp only at heq
          rcases h2 : copyStr obj1 s with ⟨obj2, os2⟩
          rw [h2] at heq
          have hcore2 : coreSig obj2 = coreSig obj := by
            have := copyStr_coreSig obj1 s
            rw [h2] at this
            exact this.trans hcore1
          cases os2 with
          | none =>
            dsimp only at heq
            have h1 := congrArg Prod.fst heq
            simp only at h1
            subst h1
            exact ⟨hcore2, rfl⟩
          | some sC =>
            dsimp only at heq
            rcases h3 : copyStr obj2 l with ⟨obj3, os3⟩
            rw [h3] at heq
            have hcore3 : coreSig obj3 = coreSig obj := by
              have := copyStr_coreSig obj2 l
              rw [h3] at this
              exact this.trans hcore2
            cases os3 with
            | none =>
              dsimp only at heq
              have h1 := congrArg Prod.fst heq
              simp only at h1
              subst h1
              exact ⟨hcore3, rfl⟩
            | some lC =>
              dsimp only at heq
              rcases h4 : copyStr obj3 n with ⟨obj4, os4⟩
              rw [h4] at heq
              have hcore4 : coreSig obj4 = coreSig obj := by
                have := copyStr_coreSig obj3 n
                rw [h4] at this
                exact this.trans hcore3
              cases os4 with
              | none =>
                dsimp only at heq
                have h1 := congrArg Prod.fst heq
                simp only at h1
                subst h1
                exact ⟨hcore4, rfl⟩
              | some nC =>
                dsimp only at heq
                rcases h5 : copyStr obj4 d with ⟨obj5, os5⟩
                rw [h5] at heq
                have hcore5 : coreSig obj5 = coreSig obj := by
                  have := copyStr_coreSig obj4 d
                  rw [h5] at this
                  exact this.trans hcore4
                cases os5 with
                | none =>
                  dsimp only at heq
                  have h1 := congrArg Prod.fst heq
                  simp only at h1
                  subst h1
                  exact ⟨hcore5, rfl⟩
                | some dC =>
                  dsimp only at heq
                  split at heq
                  · exact absurd (congrArg Prod.snd heq).symm hr
                  · exact absurd (congrArg Prod.snd heq).symm hr
    · split at heq
      · have h1 := congrArg Prod.fst heq
        simp only at h1
        subst h1
        exact ⟨setErrorMsg_coreSig obj _, rfl⟩
      · rw [addParamCont] at heq
        rcases hdc : defValCopy obj vt dv with ⟨obj1, od⟩
        rw [hdc] at heq
        have hcore1 : coreSig obj1 = coreSig obj := by
          have := defValCopy_coreSig obj vt dv
          rw [hdc] at this
          exact this
        cases od with
        | none =>
          dsimp only at heq
          have h1 := congrArg Prod.fst heq
          simp only at h1
          subst h1
          exact ⟨hcore1, rfl⟩
        | some dvv =>
          dsimp only at heq
          rcases h2 : copyStr obj1 s with ⟨obj2, os2⟩
          rw [h2] at heq
          have hcore2 : coreSig obj2 = coreSig obj := by
            have := copyStr_coreSig obj1 s
            rw [h2] at this
            exact this.trans hcore1
          cases os2 with
          | none =>
            dsimp only at heq
            have h1 := congrArg Prod.fst heq
            simp only at h1
            subst h1
            exact ⟨hcore2, rfl⟩
          | some sC =>
            dsimp only at heq
            rcases h3 : copyStr obj2 l with ⟨obj3, os3⟩
            rw [h3] at heq
            have hcore3 : coreSig obj3 = coreSig obj := by
              have := copyStr_coreSig obj2 l
              rw [h3] at this
              exact this.trans hcore2
            cases os3 with
            | none =>
              dsimp only at heq
              have h1 := congrArg Prod.fst heq
              simp only at h1
              subst h1
              exact ⟨hcore3, rfl⟩
            | some lC =>
              dsimp only at heq
              rcases h4 : copyStr obj3 n with ⟨obj4, os4⟩
              rw [h4] at heq
              have hcore4 : coreSig obj4 = coreSig obj := by
                have := copyStr_coreSig obj3 n
                rw [h4] at this
                exact this.trans hcore3
              cases os4 with
              | none =>
                dsimp only at heq
                have h1 := congrArg Prod.fst heq
                simp only at h1
                subst h1
                exact ⟨hcore4, rfl⟩
              | some nC =>
                dsimp only at heq
                rcases h5 : copyStr obj4 d with ⟨obj5, os5⟩
                rw [h5] at heq
                have hcore5 : coreSig obj5 = coreSig obj := by
                  have := copyStr_coreSig obj4 d
                  rw [h5] at this
                  exact this.trans hcore4
                cases os5 with
                | none =>
                  dsimp only at heq
                  have h1 := congrArg Prod.fst heq
                  simp only at h1
                  subst h1
                  exact ⟨hcore5, rfl⟩
                | some dC =>
                  dsimp only at heq
                  split at heq
                  · exact absurd (congrArg Prod.snd heq).symm hr
                  · exact absurd (congrArg Prod.snd heq).symm hr
  intro obj vt dv s l n d obj' r heq hr
  obtain ⟨hcore, hbuf⟩ := main obj vt dv s l n d obj' r heq hr
  have hopt : obj'.optPrms = obj.optPrms := congrArg (fun x => x.2.2.2.2.2.2.1) hcore
  have hpos : obj'.posPrms = obj.posPrms := congrArg (fun x => x.2.2.2.2.2.2.2.1) hcore
  exact ⟨hcore, hbuf, by rw [hopt], by rw [hpos]⟩

/-- Parser literal whose arena is almost exhausted (C10 witness). -/
def c10wObj : ArgParser := { initParserObj with bufIdx := 4095 }

/-- C10 witness: `claimC10_atomic` applied at a parser whose arena overflows
while copying the short option. -/
theorem claimC10_witness :
    (addParam c10wObj VarType.Int (Val.i 0) "-a" "" "a" "ad").2 ≠ RegResult.ok ∧
    coreSig (addParam c10wObj VarType.Int (Val.i 0) "-a" "" "a" "ad").1 = coreSig c10wObj ∧
    (addParam c10wObj VarType.Int (Val.i 0) "-a" "" "a" "ad").1.bufIdx = c10wObj.bufIdx :=
  ⟨by decide,
    (claimC10_atomic c10wObj VarType.Int (Val.i 0) "-a" "" "a" "ad"
      (addParam c10wObj VarType.Int (Val.i 0) "-a" "" "a" "ad").1
      (addParam c10wObj VarType.Int (Val.i 0) "-a" "" "a" "ad").2 rfl (by decide)).1,
    (claimC10_atomic c10wObj VarType.Int (Val.i 0) "-a" "" "a" "ad"
      (addParam c10wObj VarType.Int (Val.i 0) "-a" "" "a" "ad").1
      (addParam c10wObj VarType.Int (Val.i 0) "-a" "" "a" "ad").2 rfl (by decide)).2.1⟩

/-! ## Claim C1: destination contents after parse -/

/-- After the default pass, a registered slot evolved by the scan loop is the
written default or carries a `writeArg`-stored value for some source token. -/
theorem slotEvol_after {src : List String} {l0 l1 : List PrmDef} {i : Nat} {q : PrmDef}
    (hev : slotEvol src (l0.map writeDefaultValue) l1)
    (hget : l0[i]? = some q) :
    ∃ q', l1[i]? = some q' ∧ prmSig q' = prmSig q ∧
      (q'.dest = some (defaultWrittenVal q) ∨
        ∃ t, t ∈ src ∧ q'.dest = some (convStep t q).1) := by
  have hwd : (l0.map writeDefaultValue)[i]? = some (writeDefaultValue q) := by
    simp [List.getElem?_map, hget]
  rcases hev i with he | ⟨t, qq, htm, hq, hq'⟩
  · exact ⟨writeDefaultValue q, by rw [he, hwd], rfl, Or.inl rfl⟩
  · rw [hwd] at hq
    injection hq with hq2
    subst hq2
    exact ⟨_, hq', rfl, Or.inr ⟨t, htm, rfl⟩⟩

/-- C1 (amended): defaults for all optional then all positional parameters
are written before the scan loop begins; after `ArgParser_parse` returns,
every registered slot still defines the same parameter and its destination
holds either the written default or the value stored by `writeArg` for some
token (a token of argv, or the constant `"1"` used for a switch write) —
including, when that conversion failed on trailing characters, the partially
converted value the code stores before the check. -/
theorem claimC1_amended :
    ∀ (obj : ArgParser) (argv : List String),
      ((writeDefaultParams obj).optPrms = obj.optPrms.map writeDefaultValue ∧
       (writeDefaultParams obj).posPrms = obj.posPrms.map writeDefaultValue) ∧
      (∀ (i : Nat) (q : PrmDef), obj.optPrms[i]? = some q →
        ∃ q', (ArgParser_parse obj argv).1.optPrms[i]? = some q' ∧
          prmSig q' = prmSig q ∧
          (q'.dest = some (defaultWrittenVal q) ∨
            ∃ t, (t ∈ argv ∨ t = "1") ∧ q'.dest = some (convStep t q).1)) ∧
      (∀ (i : Nat) (q : PrmDef), obj.posPrms[i]? = some q →
        ∃ q', (ArgParser_parse obj argv).1.posPrms[i]? = some q' ∧
          prmSig q' = prmSig q ∧
          (q'.dest = some (defaultWrittenVal q) ∨
            ∃ t, (t ∈ argv ∨ t = "1") ∧ q'.dest = some (convStep t q).1)) := by
  intro obj argv
  rcases hpl : parseLoop (writeDefaultParams obj) (argv.drop 1) 0 with ⟨o2, k, r⟩
  have hdest := parseLoop_dest (writeDefaultParams obj) (argv.drop 1) 0
  rw [hpl] at hdest
  have hfin : (ArgParser_parse obj argv).1.optPrms = o2.optPrms ∧
      (ArgParser_parse obj argv).1.posPrms = o2.posPrms := by
    cases r with
    | ok =>
      rw [ArgParser_parse_ok hpl]
      split
      · exact ⟨rfl, rfl⟩
      · exact ⟨rfl, rfl⟩
    | err e =>
      rw [ArgParser_parse_err hpl]
      exact ⟨rfl, rfl⟩
    | exit0 b =>
      rw [ArgParser_parse_exit hpl]
      exact ⟨rfl, rfl⟩
  have hsrc : ∀ t, t ∈ ("1" :: argv.drop 1) → (t ∈ argv ∨ t = "1") := by
    intro t htm
    rcases List.mem_cons.mp htm with he | htl
    · exact Or.inr he
    · exact Or.inl (List.mem_of_mem_drop htl)
  refine ⟨⟨rfl, rfl⟩, ?_, ?_⟩
  · intro i q hget
    rw [hfin.1]
    obtain ⟨q', hq', hsig, hcases⟩ := slotEvol_after hdest.1 hget
    refine ⟨q', hq', hsig, ?_⟩
    rcases hcases with hdef | ⟨t, htm, hconv⟩
    · exact Or.inl hdef
    · exact Or.inr ⟨t, hsrc t htm, hconv⟩
  · intro i q hget
    rw [hfin.2]
    obtain ⟨q', hq', hsig, hcases⟩ := slotEvol_after hdest.2 hget
    refine ⟨q', hq', hsig, ?_⟩
    rcases hcases with hdef | ⟨t, htm, hconv⟩
    · exact Or.inl hdef
    · exact Or.inr ⟨t, hsrc t htm, hconv⟩

/-- Parser with an int option `-i` `--iparam` (default 0), for the C1
counterexample. -/
def c1Obj : ArgParser :=
  match ArgParser_new "prog" "desc" with
  | some o => (ArgParser_addInt o 0 "-i" "--iparam" "iparam" "int parameter").1
  | none => initParserObj

/-- C1 counterexample: parsing `[prog, -i, 12abc]` fails on the trailing
characters of `12abc`, yet the destination of `-i` has already been
overwritten with 12 — which is neither the parameter's default (0) nor a
value successfully converted from any token of argv (nor from the switch
constant `"1"`), refuting the claim as stated. -/
theorem claimC1_counterexample :
    ¬ (∀ p ∈ (ArgParser_parse c1Obj ["prog", "-i", "12abc"]).1.optPrms,
        p.dest = none ∨ p.dest = some (defaultWrittenVal p) ∨
        ∃ t ∈ ["prog", "-i", "12abc", "1"], conv t p = p.dest) := by
  decide

/-- Parameter and parser literals for the C1 witness. -/
def c1wPd : PrmDef :=
  { sOpt := "-i", lOpt := "", name := "i", desc := "id",
    varType := VarType.Int, defVal := Val.i 7, dest := none }

def c1wObj : ArgParser := { initParserObj with optPrms := [c1wPd] }

/-- C1 witness: `claimC1_amended` applied at a one-option parser and an
empty argument list. -/
theorem claimC1_witness :
    c1wObj.optPrms[0]? = some c1wPd ∧
    ∃ q', (ArgParser_parse c1wObj ["p"]).1.optPrms[0]? = some q' ∧
      prmSig q' = prmSig c1wPd ∧
      (q'.dest = some (defaultWrittenVal c1wPd) ∨
        ∃ t, (t ∈ ["p"] ∨ t = "1") ∧ q'.dest = some (convStep t c1wPd).1) :=
  ⟨by decide, (claimC1_amended c1wObj ["p"]).2.1 0 c1wPd (by decide)⟩
